import Mathlib

/-!
# Verification of the GTFS service-calendar resolution engine

Shallow embedding of `scripts/gtfs_json_builder.py`: calendar activation,
change-point window scanning, route-aware grouping, the ambiguity resolver
(winner selection) and the pruning orchestrator, together with proofs of the
specification claims about them.

Dates are modelled as proleptic-Gregorian ordinals (`Nat`, day 1 = 0001-01-01,
a Monday), exactly the ordinal underlying Python's `datetime.date`; `YYYYMMDD`
parsing and formatting are embedded below.  CSV rows are structures whose
fields are the strings the Python code reads from the row dictionaries (a
missing field reads as `""`, the default the code supplies).
-/

namespace GtfsBuilder

/-! ## Date arithmetic (embedding of Python `datetime.date`) -/

/-- Gregorian leap year, as used by `datetime.date`. -/
def isLeap (y : Nat) : Bool :=
  (y % 4 == 0 && y % 100 != 0) || y % 400 == 0

/-- Number of days in month `m` of year `y`. -/
def daysInMonth (y m : Nat) : Nat :=
  if m = 2 then (if isLeap y then 29 else 28)
  else if m = 4 ∨ m = 6 ∨ m = 9 ∨ m = 11 then 30
  else 31

/-- Days strictly before January 1 of year `y` (proleptic Gregorian). -/
def daysBeforeYear (y : Nat) : Nat :=
  365 * (y - 1) + (y - 1) / 4 - (y - 1) / 100 + (y - 1) / 400

/-- Days strictly before the first of month `m` in year `y`. -/
def daysBeforeMonth (y m : Nat) : Nat :=
  ((List.range (m - 1)).map (fun i => daysInMonth y (i + 1))).sum

/-- Ordinal of the date `(y, m, d)`: `toOrd 1 1 1 = 1`, matching
`datetime.date.toordinal`. -/
def toOrd (y m d : Nat) : Nat :=
  daysBeforeYear y + daysBeforeMonth y m + d

/-- Monday-first weekday of an ordinal: `wd (toOrd 1 1 1) = 0` (a Monday),
matching Python's `date.weekday()`. -/
def wd (o : Nat) : Nat := (o + 6) % 7

/-- Value of a decimal digit character, if it is one. -/
def digitVal (c : Char) : Option Nat :=
  if c.isDigit then some (c.toNat - '0'.toNat) else none

/-- Decimal value of a digit string (`none` when any char is not a digit). -/
def digitsToNat (cs : List Char) : Option Nat :=
  cs.foldl (fun acc c => match acc, digitVal c with
    | some n, some v => some (10 * n + v)
    | _, _ => none) (some 0)

/-- Embedding of `_yyyymmdd_to_date`, returning the date's ordinal: the string
must be exactly 8 digits and denote a valid `datetime.date` (year 1-9999).
Malformed strings yield `none`, as the Python helper returns `None`. -/
def yyyymmdd_to_date (s : String) : Option Nat :=
  let cs := s.toList
  if cs.length = 8 then
    match digitsToNat (cs.take 4), digitsToNat ((cs.drop 4).take 2),
          digitsToNat (cs.drop 6) with
    | some y, some m, some d =>
        if 1 ≤ y ∧ y ≤ 9999 ∧ 1 ≤ m ∧ m ≤ 12 ∧ 1 ≤ d ∧ d ≤ daysInMonth y m
        then some (toOrd y m d) else none
    | _, _, _ => none
  else none

/-- Year and 1-based day-of-year of an ordinal (fuel-driven year search). -/
def fromOrdYear : Nat → Nat → Nat → Nat × Nat
  | 0, y, n => (y, n)
  | fuel + 1, y, n =>
      let dy := if isLeap y then 366 else 365
      if n ≤ dy then (y, n) else fromOrdYear fuel (y + 1) (n - dy)

/-- Month and day-of-month from a year and a 1-based day-of-year. -/
def fromOrdMonth : Nat → Nat → Nat → Nat → Nat × Nat
  | 0, _, m, n => (m, n)
  | fuel + 1, y, m, n =>
      let dm := daysInMonth y m
      if n ≤ dm then (m, n) else fromOrdMonth fuel y (m + 1) (n - dm)

/-- Inverse of `toOrd`: the `(year, month, day)` of an ordinal. -/
def fromOrd (n : Nat) : Nat × Nat × Nat :=
  let (y, doy) := fromOrdYear n 1 n
  let (m, d) := fromOrdMonth 12 y 1 doy
  (y, m, d)

/-- Zero-pad a numeral to `w` characters. -/
def padNum (w n : Nat) : String :=
  let s := toString n
  if s.length < w then String.mk (List.replicate (w - s.length) '0') ++ s else s

/-- Embedding of `_date_to_yyyymmdd` (Python `f"{d:%Y%m%d}"`). -/
def date_to_yyyymmdd (o : Nat) : String :=
  let (y, m, d) := fromOrd o
  padNum 4 y ++ padNum 2 m ++ padNum 2 d

/-- Python `f"{d:%Y-%m-%d}"`, used in resolver reason strings. -/
def fmtDash (o : Nat) : String :=
  let (y, m, d) := fromOrd o
  padNum 4 y ++ "-" ++ padNum 2 m ++ "-" ++ padNum 2 d

/-! ## Row types -/

/-- One `calendar.txt` row as the Python code reads it: every accessed field,
as a string (a field missing from the CSV reads as the default `""`/`"0"`). -/
structure CalRow where
  service_id : String
  monday : String
  tuesday : String
  wednesday : String
  thursday : String
  friday : String
  saturday : String
  sunday : String
  start_date : String
  end_date : String
deriving DecidableEq, Repr

/-- The empty row dictionary `{}` that `calendars.get(svc_id, {})` supplies
when a service has no calendar: every `.get(field, default)` read yields the
default. -/
def emptyCalRow : CalRow :=
  ⟨"", "0", "0", "0", "0", "0", "0", "0", "", ""⟩

/-- One `calendar_dates.txt` row. -/
structure CDRow where
  service_id : String
  date : String
  exception_type : String
deriving DecidableEq, Repr

/-- One `trips.txt` row (the fields the core reads). -/
structure TripRow where
  trip_id : String
  service_id : String
  route_id : String
deriving DecidableEq, Repr

/-- One `stop_times.txt` row (only `trip_id` matters to the core). -/
structure StRow where
  trip_id : String
deriving DecidableEq, Repr

/-- Embedding of `_weekday_mask`: the seven Monday-first flags of a calendar
row (`row.get(day, "0") == "1"`). -/
def weekday_mask (c : CalRow) : List Bool :=
  [c.monday = "1", c.tuesday = "1", c.wednesday = "1", c.thursday = "1",
   c.friday = "1", c.saturday = "1", c.sunday = "1"]

/-! ## Calendar Activation Model (`_active_services_on`) -/

/-- Does the weekly pattern of row `c` cover ordinal `D`?  This is the guard
`start and end and start <= D <= end` followed by the mask test. -/
def weeklyHit (D : Nat) (c : CalRow) : Bool :=
  match yyyymmdd_to_date c.start_date, yyyymmdd_to_date c.end_date with
  | some st, some en =>
      decide (st ≤ D) && decide (D ≤ en) && (weekday_mask c).getD (wd D) false
  | _, _ => false

/-- Applies one `calendar_dates` row to the working set exactly as the loop
body of `_active_services_on` does for the queried date's `YYYYMMDD` key. -/
def applyExc (key : String) (acc : Finset String) (e : CDRow) : Finset String :=
  if e.date = key then
    if e.exception_type = "1" then insert e.service_id acc
    else if e.exception_type = "2" then acc.erase e.service_id
    else acc
  else acc

/-- Embedding of `_active_services_on`: weekly activation from `calendar`
rows, then the `calendar_dates` exceptions applied in input order. -/
def active_services_on (D : Nat) (cal : List CalRow) (cd : List CDRow) :
    Finset String :=
  let weekly := cal.foldl
    (fun acc c => if weeklyHit D c then insert c.service_id acc else acc) ∅
  cd.foldl (applyExc (date_to_yyyymmdd D)) weekly

/-! ## Change-Point Window Scanner (`_effective_windows`)

The SHA-1 based signature of the source is abstracted as a parameter
`sig : Finset String → S`: every property claimed of the scanner (tiling and
the consecutive-signature invariant) holds for an arbitrary signature
function, so in particular for the concrete `(len, sha1-prefix)` pair the
script computes. -/

/-- The scan loop of `_effective_windows`: `ds` is the remaining run of day
ordinals `start+1 .. start+days`, `curFrom`/`curSig` the open window, `acc`
the closed windows; the final window always closes at `lastDay`. -/
def winGo {S : Type} [DecidableEq S] (sigAt : Nat → S) (lastDay : Nat) :
    List Nat → Nat → S → List (Nat × Nat) → List (Nat × Nat)
  | [], curFrom, _, acc => acc ++ [(curFrom, lastDay)]
  | d :: rest, curFrom, curSig, acc =>
      let sg := sigAt d
      if sg = curSig then winGo sigAt lastDay rest curFrom curSig acc
      else winGo sigAt lastDay rest d sg (acc ++ [(curFrom, d - 1)])

/-- Embedding of `_effective_windows` (signature function abstracted; the
horizon is an `int`, and `days <= 0` short-circuits to `[]`). -/
def effective_windows {S : Type} [DecidableEq S] (sig : Finset String → S)
    (start : Nat) (days : Int) (cal : List CalRow) (cd : List CDRow) :
    List (Nat × Nat) :=
  if days ≤ 0 then []
  else
    winGo (fun d => sig (active_services_on d cal cd)) (start + days.toNat)
      (List.range' (start + 1) days.toNat) start
      (sig (active_services_on start cal cd)) []

/-- `tilesB f ws last` checks that the inclusive windows `ws` are in
chronological order and tile `[f, last]` exactly: the first starts at `f`,
each window is nonempty (`from ≤ to`), each next window starts the day after
the previous one ends, and the final window ends at `last`. -/
def tilesB : Nat → List (Nat × Nat) → Nat → Bool
  | _, [], _ => false
  | f, [(a, b)], last => a == f && decide (a ≤ b) && b == last
  | f, (a, b) :: w :: rest, last =>
      a == f && decide (a ≤ b) && tilesB (b + 1) (w :: rest) last

/-- Consecutive windows have different signatures at their start days. -/
def SigsDiffer {S : Type} (sigAt : Nat → S) : List (Nat × Nat) → Prop
  | [] => True
  | [_] => True
  | (a, _) :: (b, t) :: rest =>
      sigAt a ≠ sigAt b ∧ SigsDiffer sigAt ((b, t) :: rest)

/-! ## Ambiguity Resolver (`_choose_service_winner_factual`) -/

/-- Maximum of a list of naturals, `none` on the empty list (the value of
Python's `max(xs) if xs else None`). -/
def maxOfList : List Nat → Option Nat
  | [] => none
  | x :: xs =>
      match maxOfList xs with
      | none => some x
      | some m => some (max x m)

/-- `foldl max 0`: the value of Python's `max` over a nonempty list of
nonnegative integers (and `0` on the empty list). -/
def maxNat (l : List Nat) : Nat := l.foldl max 0

/-- Embedding of Python `int(s)` on service-id strings: optional surrounding
whitespace, an optional sign, then a nonempty run of digits. -/
def parseIntPy (s : String) : Option Int :=
  let cs := s.trim.toList
  let sgn : Int := match cs with
    | '-' :: _ => -1
    | _ => 1
  let ds : List Char := match cs with
    | '-' :: rest => rest
    | '+' :: rest => rest
    | l => l
  if ds = [] then none
  else match digitsToNat ds with
    | some n => some (sgn * n)
    | none => none

/-- The sort key `(int(s), s)` of the final numeric tiebreak. -/
def numKey (s : String) : Int × String := ((parseIntPy s).getD 0, s)

/-- Strict lexicographic order on `(int, str)` sort keys, as Python compares
the tuples built by the final tiebreak. -/
def keyLtIS (a b : Int × String) : Bool :=
  decide (a.1 < b.1) || (a.1 == b.1 && decide (a.2 < b.2))

/-- Head of `sorted([(int(s), s) for s in c], reverse=True)`: the string whose
`(int, str)` key is largest.  (`""` on `[]`, which the script never reaches —
there it would raise.) -/
def numLexMax : List String → String
  | [] => ""
  | h :: t => t.foldl (fun b s => if keyLtIS (numKey b) (numKey s) then s else b) h

/-- Head of `sorted(c, reverse=True)`: the lexicographically largest string.
(`""` on `[]`, unreachable in the script.) -/
def lexMax : List String → String
  | [] => ""
  | h :: t => t.foldl (fun b s => if b < s then s else b) h

/-- The per-candidate metrics dictionary built at the top of
`_choose_service_winner_factual`. -/
structure Metrics where
  active_dates : Finset Nat
  start_date : Option Nat
  last_active_date : Option Nat
  active_after_pivot : Nat
deriving DecidableEq

/-- Embedding of `_active_dates_for_service`: the weekly mask expanded over
`[start_date, end_date]`, then the given exception rows applied in input
order (only those matching `sid`; rows with unparseable dates are skipped). -/
def active_dates_for_service (sid : String) (cal : CalRow) (excs : List CDRow) :
    Finset Nat :=
  let weekly : Finset Nat :=
    match yyyymmdd_to_date cal.start_date, yyyymmdd_to_date cal.end_date with
    | some st, some en =>
        (Finset.Icc st en).filter (fun o => (weekday_mask cal).getD (wd o) false = true)
    | _, _ => ∅
  excs.foldl (fun acc e =>
    if e.service_id = sid then
      match yyyymmdd_to_date e.date with
      | none => acc
      | some d =>
          if e.exception_type = "1" then insert d acc
          else if e.exception_type = "2" then acc.erase d
          else acc
    else acc) weekly

/-- `max(active_dates) if active_dates else None`: the largest element of a
finite set of day ordinals, `none` when it is empty. -/
def finsetMaxOpt (s : Finset Nat) : Option Nat :=
  if s.card = 0 then none else some (s.fold max 0 id)

/-- The metrics record the resolver computes for one service (lines 140-152
of the script): its own exceptions are selected from `calendar_dates`, the
active-date set expanded, and start/last/after-pivot measures taken. -/
def metricsOf (cds : List CDRow) (pivot : Nat) (cal : CalRow) (sid : String) :
    Metrics :=
  let excs := cds.filter (fun e => e.service_id == sid)
  let ad := active_dates_for_service sid cal excs
  { active_dates := ad
    start_date := yyyymmdd_to_date cal.start_date
    last_active_date := finsetMaxOpt ad
    active_after_pivot := (ad.filter (fun d => pivot ≤ d)).card }

/-- The pairwise overlap counts `len(A & B)` visited by the resolver's double
loop, in loop order. -/
def pairOverlaps (m : String → Metrics) : List String → List Nat
  | [] => []
  | a :: rest =>
      rest.map (fun b => ((m a).active_dates ∩ (m b).active_dates).card)
        ++ pairOverlaps m rest

/-- The `max_overlap` accumulator: starts at `0` and takes every pairwise
overlap count into the running maximum. -/
def maxPairOverlap (m : String → Metrics) (services : List String) : Nat :=
  maxNat (pairOverlaps m services)

/-- Final tiebreak (lines 189-198): if every candidate id parses as an
integer, the largest `(int, str)` key wins, otherwise the lexicographically
largest string; either way a reason naming the criterion and the winner is
appended. -/
def stage4 (candidates : List String) (reasons : List String) :
    Option String × List String × Bool :=
  if candidates.all (fun s => (parseIntPy s).isSome) then
    (some (numLexMax candidates),
     reasons ++ ["Tiebreaker: highest service_id (" ++ numLexMax candidates ++ ")"],
     false)
  else
    (some (lexMax candidates),
     reasons ++ ["Tiebreaker: lexicographically highest service_id ("
        ++ lexMax candidates ++ ")"],
     false)

/-- Start-date stage (lines 181-188): filter to the latest parsed
`start_date` when any candidate has one; resolve on a singleton, otherwise
record the tie and continue. -/
def stage3 (m : String → Metrics) (candidates reasons : List String) :
    Option String × List String × Bool :=
  match maxOfList (candidates.filterMap (fun s => (m s).start_date)) with
  | some ms =>
      let c := candidates.filter (fun s => (m s).start_date == some ms)
      if c.length = 1 then
        (c.head?, reasons ++ ["Latest start_date: " ++ fmtDash ms], false)
      else stage4 c (reasons ++ ["Tied on start_date: " ++ fmtDash ms])
  | none => stage4 candidates reasons

/-- After-pivot stage (lines 173-180): keep the candidates with the maximal
`active_after_pivot`; resolve on a singleton, otherwise record the tie (only
when the maximum is positive) and continue.  The script's `if candidates:`
guard is subsumed: on `[]` the filter is `[]` and no reason is added, exactly
as skipping the block. -/
def stage2 (m : String → Metrics) (candidates reasons : List String) :
    Option String × List String × Bool :=
  let mx := maxNat (candidates.map (fun s => (m s).active_after_pivot))
  let c := candidates.filter (fun s => (m s).active_after_pivot == mx)
  if c.length = 1 then
    (c.head?, reasons ++ ["Most active days after pivot (" ++ toString mx ++ " days)"],
     false)
  else
    stage3 m c
      (if 0 < mx then reasons ++ ["Tied on active days after pivot: " ++ toString mx]
       else reasons)

/-- Last-active stage (lines 164-172), entered with the empty reasons list:
when any service has a `last_active_date`, keep exactly those achieving the
maximum (absent dates lose); resolve on a singleton, otherwise record the tie
and continue. -/
def stage1 (m : String → Metrics) (services : List String) :
    Option String × List String × Bool :=
  match maxOfList (services.filterMap (fun s => (m s).last_active_date)) with
  | some ml =>
      let c := services.filter (fun s => (m s).last_active_date == some ml)
      if c.length = 1 then
        (c.head?, ["Latest last_active_date: " ++ fmtDash ml], false)
      else stage2 m c ["Tied on last_active_date: " ++ fmtDash ml]
  | none => stage2 m services []

/-- The metrics the resolver computes per service id: the calendar row is
looked up in the dictionary (a missing id reads as the empty row `{}`). -/
def resolverMetrics (calendars : String → Option CalRow) (cds : List CDRow)
    (pivot : Nat) : String → Metrics :=
  fun s => metricsOf cds pivot ((calendars s).getD emptyCalRow) s

/-- Embedding of `_choose_service_winner_factual`: the `(winner, reasons,
is_ambiguous)` triple. -/
def choose_service_winner_factual (services : List String)
    (calendars : String → Option CalRow) (calendar_dates : List CDRow)
    (pivot : Nat) (overlap_max_days : Nat) :
    Option String × List String × Bool :=
  if services.length ≤ 1 then (services.head?, ["Only one service in group"], false)
  else
    let m : String → Metrics := resolverMetrics calendars calendar_dates pivot
    let mo := maxPairOverlap m services
    if overlap_max_days < mo then
      (none,
       ["Ambiguous: services overlap by " ++ toString mo ++ " days (> "
          ++ toString overlap_max_days ++ ")"],
       true)
    else stage1 m services

/-- The `calendars_dict` comprehension of the orchestrator (line 239): rows
are written in input order, so a later row with the same `service_id`
overwrites an earlier one. -/
def calendarsDict (rows : List CalRow) : String → Option CalRow :=
  rows.foldl (fun mp r => fun sid => if sid = r.service_id then some r else mp sid)
    (fun _ => none)

/-! ### The elimination chain as the specification words it (§4.4)

These definitions follow the spec's description of the chain — each stage
keeps the candidates achieving the stage's maximum, absent values losing, and
the first stage left with exactly one candidate decides — and are compared
against the source-derived resolver in the C1 theorem. -/

/-- Spec wording: keep the candidates achieving the highest value of `f`,
absent values losing (when no candidate has a value the pool is unchanged). -/
def filterMaxOpt (f : String → Option Nat) (pool : List String) : List String :=
  match maxOfList (pool.filterMap f) with
  | none => pool
  | some mx => pool.filter (fun s => f s == some mx)

/-- Spec wording: keep the candidates achieving the highest value of `f`. -/
def filterMaxNat (f : String → Nat) (pool : List String) : List String :=
  pool.filter (fun s => f s == maxNat (pool.map f))

/-- Spec wording of the final tiebreak: the numerically largest id when every
remaining id parses as an integer (several ids sharing the numeric maximum
are resolved to the largest string, the code's deterministic order),
otherwise the lexicographically largest string id. -/
def specStage4Pick (pool : List String) : String :=
  if pool.all (fun s => (parseIntPy s).isSome) then numLexMax pool else lexMax pool

/-- Spec wording, stages 3-4: narrow by highest `start_date`; a sole survivor
wins, otherwise the final tiebreak picks over the remaining pool. -/
def spec3Pick (m : String → Metrics) (pool : List String) : String :=
  let p3 := filterMaxOpt (fun s => (m s).start_date) pool
  if p3.length = 1 then p3.headD "" else specStage4Pick p3

/-- Spec wording, stages 2-4: narrow by highest `active_after_pivot` count;
a sole survivor wins, otherwise continue with the later stages. -/
def spec2Pick (m : String → Metrics) (pool : List String) : String :=
  let p2 := filterMaxNat (fun s => (m s).active_after_pivot) pool
  if p2.length = 1 then p2.headD "" else spec3Pick m p2

/-- Spec wording of the whole chain: run the four stages in order and return
the sole survivor of the first stage that narrows the pool to exactly one
candidate. -/
def specChainWinner (m : String → Metrics) (services : List String) : String :=
  let p1 := filterMaxOpt (fun s => (m s).last_active_date) services
  if p1.length = 1 then p1.headD "" else spec2Pick m p1

/-! ## Route-Aware Equivalence Grouper (`_build_route_grouping`)

Python's `sorted` is embedded as `List.insertionSort`: it is applied below
only to duplicate-free lists under total orders, where every sorting
algorithm produces the same list.  String comparisons are Python's
code-point lexicographic order, expressed on character lists (the order
`Mathlib` proves equal to `String`'s own). -/

/-- Strict code-point lexicographic order on strings. -/
def strLtB (a b : String) : Bool := decide (a.toList < b.toList)

/-- Reflexive code-point lexicographic order on strings. -/
def strLeB (a b : String) : Bool := ! strLtB b a

theorem strLeB_iff (a b : String) : strLeB a b = true ↔ a ≤ b := by
  rw [String.le_iff_toList_le]
  simp only [strLeB, strLtB, Bool.not_eq_true', decide_eq_false_iff_not]
  exact not_lt

/-- The sentinel for a trip with no `route_id`. -/
def UNKNOWN_ROUTE_ID : String := "<unknown-route>"

/-- Route contributed by one trip: the sentinel when `route_id` is falsy. -/
def routeOf (t : TripRow) : String :=
  if t.route_id = "" then UNKNOWN_ROUTE_ID else t.route_id

/-- The `service_routes` accumulator of `_build_route_grouping`: for every
trip with a truthy `service_id`, its route is added to that service's set (a
duplicate-free list here; an id never written reads as the empty set, like a
missing dict key). -/
def serviceRoutes (trips : List TripRow) : String → List String :=
  trips.foldl (fun mp t =>
    if t.service_id = "" then mp
    else fun sid =>
      if sid = t.service_id then
        (if routeOf t ∈ mp sid then mp sid else routeOf t :: mp sid)
      else mp sid)
    (fun _ => [])

/-- `tuple(sorted(service_routes.get(service_id) or {UNKNOWN_ROUTE_ID}))`:
the sorted route set of a service, the unknown-route singleton when it owns
no trip. -/
def routesKey (trips : List TripRow) (sid : String) : List String :=
  let rs := serviceRoutes trips sid
  List.insertionSort (fun a b => strLeB a b = true)
    (if rs = [] then [UNKNOWN_ROUTE_ID] else rs)

/-- Group key of a calendar row: its weekday mask and its sorted route set. -/
def groupKeyOf (trips : List TripRow) (c : CalRow) : List Bool × List String :=
  (weekday_mask c, routesKey trips c.service_id)

/-- The `groups` dictionary of `_build_route_grouping` as a key/value list:
calendar rows with a falsy `service_id` are skipped, every other row's id is
appended to its key's list in row order.  (Key order is normalised by the
orchestrator's sort below, so only the key set and the per-key lists
matter.) -/
def groupList (cal : List CalRow) (trips : List TripRow) :
    List ((List Bool × List String) × List String) :=
  let valid := cal.filter (fun c => c.service_id != "")
  ((valid.map (groupKeyOf trips)).dedup).map
    (fun k => (k, (valid.filter (fun c => groupKeyOf trips c == k)).map (·.service_id)))

/-! ## Pruning Orchestrator (`_prune_overlaps_factual`) -/

/-- Strict order on booleans (`False < True`), as Python compares them. -/
def boolLtB (a b : Bool) : Bool := !a && b

/-- Strict lexicographic order on lists from a strict element order, as
Python compares tuples. -/
def listLtB {α : Type} (ltB : α → α → Bool) : List α → List α → Bool
  | _, [] => false
  | [], _ :: _ => true
  | a :: as, b :: bs =>
      if ltB a b then true else if ltB b a then false else listLtB ltB as bs

/-- Strict order on group keys: Python's comparison of
`(mask_tuple, routes_tuple)` pairs. -/
def gkeyLtB (a b : List Bool × List String) : Bool :=
  listLtB boolLtB a.1 b.1 || (a.1 == b.1 && listLtB strLtB a.2 b.2)

/-- Reflexive closure of `gkeyLtB` on the key of a group entry, the sort
order of `sorted(groups.items(), key=...)` (keys are pairwise distinct, so
stability is moot). -/
def gkeyLeB (a b : (List Bool × List String) × List String) : Bool :=
  gkeyLtB a.1 b.1 || a.1 == b.1

/-- One per-group entry of `diagnostics["groups"]` (the Python code stores
`str(mask)`; the mask itself is kept here). -/
structure GroupRec where
  weekday_mask : List Bool
  route_ids : List String
  service_ids : List String
  winner : Option String
  reasons : List String
  is_ambiguous : Bool
deriving DecidableEq

/-- The mutable state threaded through the orchestrator's group loop: the
keep/prune sets, the per-group records, and the summary counters. -/
structure PruneState where
  keep : Finset String
  prune : Finset String
  recs : List GroupRec
  overlapping_groups : Nat
  ambiguous_groups : Nat
  pruned_services : Nat
  kept_services : Nat

/-- Loop state before the first group. -/
def initPruneState : PruneState := ⟨∅, ∅, [], 0, 0, 0, 0⟩

/-- The body of the orchestrator's per-group loop (lines 259-317): singleton
groups are kept outright; groups whose mask has at most two active days are
kept in full and recorded ambiguous; otherwise the resolver runs and either
every service is kept (ambiguous or falsy winner — Python's `not winner`) or
only the winner is kept and the rest are marked pruned. -/
def processGroup (calendars : String → Option CalRow) (cds : List CDRow)
    (pivot ov : Nat) (st : PruneState)
    (g : (List Bool × List String) × List String) : PruneState :=
  let mask := g.1.1
  let route_ids := g.1.2
  let sids := g.2
  let activeDayCount := mask.count true
  if sids.length ≤ 1 then
    { st with keep := st.keep ∪ sids.toFinset,
              kept_services := st.kept_services + sids.length }
  else
    let st1 := { st with overlapping_groups := st.overlapping_groups + 1 }
    if activeDayCount ≤ 2 then
      { st1 with
        keep := st1.keep ∪ sids.toFinset
        ambiguous_groups := st1.ambiguous_groups + 1
        kept_services := st1.kept_services + sids.length
        recs := st1.recs ++ [{
          weekday_mask := mask, route_ids := route_ids, service_ids := sids,
          winner := none,
          reasons := ["Weekday mask has " ++ toString activeDayCount
                        ++ " active day(s); keeping all services",
                      "Routes: " ++ String.intercalate "," route_ids],
          is_ambiguous := true }] }
    else
      let r := choose_service_winner_factual sids calendars cds pivot ov
      let st2 := { st1 with recs := st1.recs ++ [({
        weekday_mask := mask, route_ids := route_ids, service_ids := sids,
        winner := r.1, reasons := r.2.1, is_ambiguous := r.2.2 } : GroupRec)] }
      if r.2.2 = true ∨ r.1.getD "" = "" then
        { st2 with keep := st2.keep ∪ sids.toFinset,
                   ambiguous_groups := st2.ambiguous_groups + 1,
                   kept_services := st2.kept_services + sids.length }
      else
        let w := r.1.getD ""
        let pruned := sids.filter (fun s => s != w)
        { st2 with keep := insert w st2.keep,
                   prune := st2.prune ∪ pruned.toFinset,
                   pruned_services := st2.pruned_services + pruned.length,
                   kept_services := st2.kept_services + 1 }

/-- The loop state after all groups have been processed, iterating the groups
sorted by key as the orchestrator does. -/
def pruneState (cal : List CalRow) (cds : List CDRow) (trips : List TripRow)
    (pivot ov : Nat) : PruneState :=
  (List.insertionSort (fun a b => gkeyLeB a b = true) (groupList cal trips)).foldl
    (processGroup (calendarsDict cal) cds pivot ov) initPruneState

/-- The diagnostics object of `_prune_overlaps_factual`. -/
structure Diagnostics where
  pivot_date : String
  overlap_max_days : Nat
  groups : List GroupRec
  total_groups : Nat
  overlapping_groups : Nat
  ambiguous_groups : Nat
  pruned_services : Nat
  kept_services : Nat

/-- Embedding of `_prune_overlaps_factual` (lines 223-331).  The pivot date —
derived in the script from the current UTC date and the optional
`feed_start_date`, its only real-time input — is taken as a parameter.  After
the group loop the four row collections are filtered: calendars, exceptions
and trips by kept `service_id`, stop-times by the surviving trips' ids. -/
def prune_overlaps_factual (cal : List CalRow) (cds : List CDRow)
    (trips : List TripRow) (stop_times : List StRow) (pivot ov : Nat) :
    List CalRow × List CDRow × List TripRow × List StRow × Diagnostics :=
  let st := pruneState cal cds trips pivot ov
  let cal_f := cal.filter (fun c => decide (c.service_id ∈ st.keep))
  let cd_f := cds.filter (fun d => decide (d.service_id ∈ st.keep))
  let trips_f := trips.filter (fun t => decide (t.service_id ∈ st.keep))
  let kept_trip_ids : Finset String := (trips_f.map (·.trip_id)).toFinset
  let st_f := stop_times.filter (fun s => decide (s.trip_id ∈ kept_trip_ids))
  (cal_f, cd_f, trips_f, st_f,
   ⟨fmtDash pivot, ov, st.recs, (groupList cal trips).length,
    st.overlapping_groups, st.ambiguous_groups, st.pruned_services,
    st.kept_services⟩)

/-! ## Helper lemmas -/

theorem maxOfList_eq_none {l : List Nat} : maxOfList l = none ↔ l = [] := by
  cases l with
  | nil => simp [maxOfList]
  | cons x xs =>
      simp only [maxOfList]
      cases maxOfList xs <;> simp

theorem maxOfList_mem {l : List Nat} {m : Nat} (h : maxOfList l = some m) : m ∈ l := by
  induction l with
  | nil => simp [maxOfList] at h
  | cons x xs ih =>
      simp only [maxOfList] at h
      cases hx : maxOfList xs with
      | none => rw [hx] at h; simp at h; simp [h]
      | some m' =>
          rw [hx] at h
          simp at h
          rcases max_choice x m' with hc | hc

          · simp [← h, hc]
          · right; exact ih (by rw [hx, ← h, hc])

theorem le_maxOfList {l : List Nat} : ∀ {x m : Nat}, x ∈ l →
    maxOfList l = some m → x ≤ m := by
  induction l with
  | nil => intro x m hx _; simp at hx
  | cons y ys ih =>
      intro x m hx h
      simp only [maxOfList] at h
      cases hy : maxOfList ys with
      | none =>
          rw [hy] at h
          rw [maxOfList_eq_none.mp hy] at hx
          simp at hx h
          omega
      | some m' =>
          rw [hy] at h
          simp at h
          rcases List.mem_cons.mp hx with rfl | hmem
          · have := le_max_left x m'
            omega
          · have h1 := ih hmem hy
            have h2 := le_max_right y m'
            omega

theorem foldl_max_or (l : List Nat) (a : Nat) :
    l.foldl max a = a ∨ l.foldl max a ∈ l := by
  induction l generalizing a with
  | nil => simp
  | cons x xs ih =>
      simp only [List.foldl_cons]
      rcases ih (max a x) with h | h
      · rw [h]
        rcases max_choice a x with hc | hc
        · left; exact hc
        · right; simp [hc]
      · right; simp [h]

theorem le_foldl_max (l : List Nat) (a : Nat) : a ≤ l.foldl max a := by
  induction l generalizing a with
  | nil => simp
  | cons x xs ih => exact le_trans (le_max_left a x) (ih (max a x))

theorem mem_le_foldl_max {l : List Nat} {x : Nat} (hx : x ∈ l) (a : Nat) :
    x ≤ l.foldl max a := by
  induction l generalizing a with
  | nil => simp at hx
  | cons y ys ih =>
      rcases List.mem_cons.mp hx with rfl | h
      · exact le_trans (le_max_right a x) (le_foldl_max ys (max a x))
      · exact ih h (max a y)

theorem maxNat_le_of_mem {l : List Nat} {x : Nat} (hx : x ∈ l) : x ≤ maxNat l :=
  mem_le_foldl_max hx 0

theorem maxNat_attained {l : List Nat} (h : l ≠ []) : maxNat l ∈ l := by
  rcases foldl_max_or l 0 with h0 | hm
  · cases l with
    | nil => exact absurd rfl h
    | cons x xs =>
        have hx : x ≤ List.foldl max 0 (x :: xs) := mem_le_foldl_max (by simp) 0
        rw [h0] at hx
        have hx0 : x = 0 := Nat.le_zero.mp hx
        show List.foldl max 0 (x :: xs) ∈ x :: xs
        rw [h0, hx0]
        simp
  · simpa [maxNat] using hm

theorem length_one_head? {α : Type} {l : List α} (h : l.length = 1) :
    ∃ x, l = [x] ∧ l.head? = some x ∧ ∀ d : α, l.headD d = x := by
  cases l with
  | nil => simp at h
  | cons x xs =>
      cases xs with
      | nil => exact ⟨x, rfl, rfl, fun _ => rfl⟩
      | cons y ys => simp at h

theorem foldl_pick_mem {α : Type} (p : α → α → Bool) (t : List α) (b : α) :
    t.foldl (fun x y => if p x y then y else x) b ∈ b :: t := by
  induction t generalizing b with
  | nil => simp
  | cons s t' ih =>
      simp only [List.foldl_cons]
      rcases List.mem_cons.mp (ih (if p b s then s else b)) with h | h
      · rw [h]
        by_cases hp : p b s = true <;> simp [hp]
      · simp [h]

theorem numLexMax_mem {c : List String} (h : c ≠ []) : numLexMax c ∈ c := by
  cases c with
  | nil => exact absurd rfl h
  | cons x xs =>
      simpa [numLexMax] using
        foldl_pick_mem (fun b s => keyLtIS (numKey b) (numKey s)) xs x

theorem lexMax_mem {c : List String} (h : c ≠ []) : lexMax c ∈ c := by
  cases c with
  | nil => exact absurd rfl h
  | cons x xs =>
      simpa [lexMax] using foldl_pick_mem (fun b s => decide (b < s)) xs x

theorem find?_append {α : Type} (p : α → Bool) (l1 l2 : List α) :
    (l1 ++ l2).find? p
      = match l1.find? p with
        | some x => some x
        | none => l2.find? p := by
  induction l1 with
  | nil => simp
  | cons a l ih =>
      by_cases hp : p a = true
      · simp [List.find?, hp]
      · simp only [List.cons_append, List.find?]
        rw [Bool.of_not_eq_true hp]
        exact ih

theorem calendarsDict_lookup (rows : List CalRow) (sid : String) :
    calendarsDict rows sid
      = match rows.reverse.find? (fun r => r.service_id == sid) with
        | some r => some r
        | none => none := by
  suffices h : ∀ (rows : List CalRow) (init : String → Option CalRow) (sid : String),
      (rows.foldl (fun mp r => fun s => if s = r.service_id then some r else mp s) init) sid
        = match rows.reverse.find? (fun r => r.service_id == sid) with
          | some r => some r
          | none => init sid by
    exact h rows (fun _ => none) sid
  intro rows
  induction rows with
  | nil => intro init sid; simp
  | cons r rest ih =>
      intro init sid
      simp only [List.foldl_cons, List.reverse_cons]
      rw [ih, find?_append]
      cases hrest : rest.reverse.find? (fun r => r.service_id == sid) with
      | some r' => simp
      | none =>
          simp only [List.find?]
          by_cases hp : r.service_id = sid
          · simp [hp]
          · have h1 : (r.service_id == sid) = false := by
              simp [hp]
            rw [h1]
            simp only [List.find?]
            rw [if_neg (fun hc => hp hc.symm)]

/-! ## Claim theorems -/

/-- C9: called with an empty service list, the resolver does not raise — the
`len(services) <= 1` fast path returns `(None, ["Only one service in group"],
False)`, `services[0] if services else None` yielding `None`. -/
theorem c9_empty_service_list :
    ∀ (calendars : String → Option CalRow) (cds : List CDRow) (pivot ov : Nat),
      choose_service_winner_factual [] calendars cds pivot ov
        = (none, ["Only one service in group"], false) := by
  intro calendars cds pivot ov
  rfl

/-- C10: `calendars_dict` is a dict comprehension over `calendar_rows`, so a
later row overwrites an earlier one with the same `service_id`: the lookup
the resolver performs returns the last matching row, its per-service metrics
are computed from that row alone, and the whole resolver run agrees with one
fed only the last row per id. -/
theorem c10_last_calendar_row_wins :
    ∀ (rows : List CalRow) (sid : String) (services : List String)
      (cds : List CDRow) (pivot ov : Nat),
      calendarsDict rows sid = rows.reverse.find? (fun r => r.service_id == sid)
      ∧ resolverMetrics (calendarsDict rows) cds pivot sid
          = metricsOf cds pivot
              ((rows.reverse.find? (fun r => r.service_id == sid)).getD emptyCalRow) sid
      ∧ choose_service_winner_factual services (calendarsDict rows) cds pivot ov
          = choose_service_winner_factual services
              (fun s => rows.reverse.find? (fun r => r.service_id == s)) cds pivot ov := by
  intro rows sid services cds pivot ov
  have hpt : ∀ s, calendarsDict rows s
      = rows.reverse.find? (fun r => r.service_id == s) := by
    intro s
    rw [calendarsDict_lookup]
    cases rows.reverse.find? (fun r => r.service_id == s) <;> rfl
  have hfun : calendarsDict rows
      = fun s => rows.reverse.find? (fun r => r.service_id == s) := funext hpt
  refine ⟨hpt sid, ?_, ?_⟩
  · simp only [resolverMetrics, hpt sid]
  · rw [hfun]

/-- C2: for a group of at least two services whose maximal pairwise
active-date overlap strictly exceeds the threshold, the resolver returns
`winner = None`, `is_ambiguous = True` and the single reason recording the
overlap magnitude and threshold — the elimination chain never runs; and the
`max_overlap` accumulator indeed bounds every pairwise overlap count. -/
theorem c2_overlap_ambiguity :
    ∀ (services : List String) (calendars : String → Option CalRow)
      (cds : List CDRow) (pivot ov : Nat),
      2 ≤ services.length →
      ov < maxPairOverlap (resolverMetrics calendars cds pivot) services →
      choose_service_winner_factual services calendars cds pivot ov
        = (none,
           ["Ambiguous: services overlap by "
              ++ toString (maxPairOverlap (resolverMetrics calendars cds pivot) services)
              ++ " days (> " ++ toString ov ++ ")"], true)
      ∧ ∀ x ∈ pairOverlaps (resolverMetrics calendars cds pivot) services,
          x ≤ maxPairOverlap (resolverMetrics calendars cds pivot) services := by
  intro services calendars cds pivot ov hlen hov
  constructor
  · simp only [choose_service_winner_factual]
    rw [if_neg (by omega), if_pos hov]
  · intro x hx
    exact maxNat_le_of_mem hx

/-- Witness for C2: two services with identical ten-day calendars overlap by
ten days, exceeding a zero threshold. -/
theorem c2_overlap_ambiguity_witness :
    2 ≤ (["1", "2"] : List String).length
    ∧ 0 < maxPairOverlap
        (resolverMetrics
          (calendarsDict
            [⟨"1", "1", "1", "1", "1", "1", "1", "1", "20240101", "20240110"⟩,
             ⟨"2", "1", "1", "1", "1", "1", "1", "1", "20240101", "20240110"⟩]) [] 1)
        ["1", "2"]
    ∧ (choose_service_winner_factual ["1", "2"]
         (calendarsDict
           [⟨"1", "1", "1", "1", "1", "1", "1", "1", "20240101", "20240110"⟩,
            ⟨"2", "1", "1", "1", "1", "1", "1", "1", "20240101", "20240110"⟩]) [] 1 0
         = (none,
            ["Ambiguous: services overlap by "
               ++ toString (maxPairOverlap
                    (resolverMetrics
                      (calendarsDict
                        [⟨"1", "1", "1", "1", "1", "1", "1", "1", "20240101", "20240110"⟩,
                         ⟨"2", "1", "1", "1", "1", "1", "1", "1", "20240101", "20240110"⟩]) [] 1)
                    ["1", "2"])
               ++ " days (> " ++ toString 0 ++ ")"], true)
        ∧ ∀ x ∈ pairOverlaps
            (resolverMetrics
              (calendarsDict
                [⟨"1", "1", "1", "1", "1", "1", "1", "1", "20240101", "20240110"⟩,
                 ⟨"2", "1", "1", "1", "1", "1", "1", "1", "20240101", "20240110"⟩]) [] 1)
            ["1", "2"],
            x ≤ maxPairOverlap
              (resolverMetrics
                (calendarsDict
                  [⟨"1", "1", "1", "1", "1", "1", "1", "1", "20240101", "20240110"⟩,
                   ⟨"2", "1", "1", "1", "1", "1", "1", "1", "20240101", "20240110"⟩]) [] 1)
              ["1", "2"]) :=
  ⟨by decide, by decide,
   c2_overlap_ambiguity ["1", "2"]
     (calendarsDict
       [⟨"1", "1", "1", "1", "1", "1", "1", "1", "20240101", "20240110"⟩,
        ⟨"2", "1", "1", "1", "1", "1", "1", "1", "20240101", "20240110"⟩]) [] 1 0
     (by decide) (by decide)⟩

/-- C8: every elimination stage that filters the pool but still leaves more
than one candidate hands the narrowed pool to the next stage together with an
appended "Tied on …" reason — for the after-pivot stage a genuine narrowing
forces the maximum to be positive, so its conditional append always fires —
and the terminal tiebreak stage always returns a winner from the pool with a
final reason naming the decisive criterion and its value. -/
theorem c8_tied_reasons_before_next_stage :
    (∀ (m : String → Metrics) (services : List String) (ml : Nat),
      maxOfList (services.filterMap (fun s => (m s).last_active_date)) = some ml →
      1 < (services.filter (fun s => (m s).last_active_date == some ml)).length →
      stage1 m services
        = stage2 m (services.filter (fun s => (m s).last_active_date == some ml))
            ["Tied on last_active_date: " ++ fmtDash ml])
    ∧ (∀ (m : String → Metrics) (candidates reasons : List String),
      (candidates.filter (fun s => (m s).active_after_pivot
          == maxNat (candidates.map (fun s => (m s).active_after_pivot)))).length
        < candidates.length →
      1 < (candidates.filter (fun s => (m s).active_after_pivot
          == maxNat (candidates.map (fun s => (m s).active_after_pivot)))).length →
      stage2 m candidates reasons
        = stage3 m
            (candidates.filter (fun s => (m s).active_after_pivot
              == maxNat (candidates.map (fun s => (m s).active_after_pivot))))
            (reasons ++ ["Tied on active days after pivot: "
              ++ toString (maxNat (candidates.map (fun s => (m s).active_after_pivot)))]))
    ∧ (∀ (m : String → Metrics) (candidates reasons : List String) (ms : Nat),
      maxOfList (candidates.filterMap (fun s => (m s).start_date)) = some ms →
      1 < (candidates.filter (fun s => (m s).start_date == some ms)).length →
      stage3 m candidates reasons
        = stage4 (candidates.filter (fun s => (m s).start_date == some ms))
            (reasons ++ ["Tied on start_date: " ++ fmtDash ms]))
    ∧ (∀ (candidates reasons : List String),
      candidates ≠ [] →
      ∃ w, w ∈ candidates ∧ (stage4 candidates reasons).1 = some w
        ∧ ((stage4 candidates reasons).2.1
             = reasons ++ ["Tiebreaker: highest service_id (" ++ w ++ ")"]
           ∨ (stage4 candidates reasons).2.1
             = reasons
                 ++ ["Tiebreaker: lexicographically highest service_id (" ++ w ++ ")"])) := by
  refine ⟨?_, ?_, ?_, ?_⟩
  · intro m services ml hml hlen
    simp only [stage1, hml]
    rw [if_neg (by omega)]
  · intro m candidates reasons hnarrow hlen
    have hmx : 0 < maxNat (candidates.map (fun s => (m s).active_after_pivot)) := by
      by_contra hz
      have hz0 : maxNat (candidates.map (fun s => (m s).active_after_pivot)) = 0 := by
        omega
      have hall : candidates.filter (fun s => (m s).active_after_pivot
          == maxNat (candidates.map (fun s => (m s).active_after_pivot))) = candidates := by
        apply List.filter_eq_self.mpr
        intro s hs
        have hle : (m s).active_after_pivot
            ≤ maxNat (candidates.map (fun s => (m s).active_after_pivot)) :=
          maxNat_le_of_mem (List.mem_map_of_mem _ hs)
        simp only [beq_iff_eq]
        omega
      rw [hall] at hnarrow
      omega
    simp only [stage2]
    rw [if_neg (by omega), if_pos hmx]
  · intro m candidates reasons ms hms hlen
    simp only [stage3, hms]
    rw [if_neg (by omega)]
  · intro candidates reasons hne
    simp only [stage4]
    by_cases hall : candidates.all (fun s => (parseIntPy s).isSome) = true
    · exact ⟨numLexMax candidates, numLexMax_mem hne, by rw [if_pos hall],
        Or.inl (by rw [if_pos hall])⟩
    · exact ⟨lexMax candidates, lexMax_mem hne, by rw [if_neg hall],
        Or.inr (by rw [if_neg hall])⟩

/-- Sample metrics table for the C8 witness: `"a"` and `"b"` tie on every
date-based criterion, `"z"` loses them all. -/
def sampleM : String → Metrics :=
  fun s => if s = "z" then ⟨∅, none, some 9, 1⟩ else ⟨∅, some 5, some 10, 3⟩

/-- Witness for C8: each stage's tie hypothesis is satisfied by the sample
pool `["a", "b", "z"]`, and the terminal stage on `["2", "10"]`. -/
theorem c8_tied_reasons_witness :
    (maxOfList ((["a", "b", "z"] : List String).filterMap
        (fun s => (sampleM s).last_active_date)) = some 10
     ∧ 1 < ((["a", "b", "z"] : List String).filter
        (fun s => (sampleM s).last_active_date == some 10)).length
     ∧ stage1 sampleM ["a", "b", "z"]
         = stage2 sampleM ((["a", "b", "z"] : List String).filter
             (fun s => (sampleM s).last_active_date == some 10))
             ["Tied on last_active_date: " ++ fmtDash 10])
    ∧ (((["a", "b", "z"] : List String).filter (fun s => (sampleM s).active_after_pivot
          == maxNat ((["a", "b", "z"] : List String).map
               (fun s => (sampleM s).active_after_pivot)))).length < 3
       ∧ stage2 sampleM ["a", "b", "z"] []
           = stage3 sampleM
               ((["a", "b", "z"] : List String).filter
                 (fun s => (sampleM s).active_after_pivot
                   == maxNat ((["a", "b", "z"] : List String).map
                        (fun s => (sampleM s).active_after_pivot))))
               ([] ++ ["Tied on active days after pivot: "
                 ++ toString (maxNat ((["a", "b", "z"] : List String).map
                      (fun s => (sampleM s).active_after_pivot)))]))
    ∧ stage3 sampleM ["a", "b", "z"] []
        = stage4 ((["a", "b", "z"] : List String).filter
            (fun s => (sampleM s).start_date == some 5))
            ([] ++ ["Tied on start_date: " ++ fmtDash 5])
    ∧ ∃ w, w ∈ (["2", "10"] : List String) ∧ (stage4 ["2", "10"] []).1 = some w
        ∧ ((stage4 ["2", "10"] []).2.1
             = [] ++ ["Tiebreaker: highest service_id (" ++ w ++ ")"]
           ∨ (stage4 ["2", "10"] []).2.1
             = [] ++ ["Tiebreaker: lexicographically highest service_id (" ++ w ++ ")"]) :=
  ⟨⟨by decide, by decide,
    c8_tied_reasons_before_next_stage.1 sampleM ["a", "b", "z"] 10 (by decide) (by decide)⟩,
   ⟨by decide,
    c8_tied_reasons_before_next_stage.2.1 sampleM ["a", "b", "z"] [] (by decide) (by decide)⟩,
   c8_tied_reasons_before_next_stage.2.2.1 sampleM ["a", "b", "z"] [] 5 (by decide) (by decide),
   c8_tied_reasons_before_next_stage.2.2.2 ["2", "10"] [] (by decide)⟩

theorem winGo_append {S : Type} [DecidableEq S] (sigAt : Nat → S) (last : Nat) :
    ∀ (ds : List Nat) (f : Nat) (s : S) (acc : List (Nat × Nat)),
      winGo sigAt last ds f s acc = acc ++ winGo sigAt last ds f s [] := by
  intro ds
  induction ds with
  | nil => intro f s acc; simp [winGo]
  | cons d rest ih =>
      intro f s acc
      simp only [winGo]
      by_cases h : sigAt d = s
      · rw [if_pos h, if_pos h, ih]
      · rw [if_neg h, if_neg h, ih d (sigAt d) (acc ++ [(f, d - 1)]),
          ih d (sigAt d) ([] ++ [(f, d - 1)])]
        simp

theorem winGo_spec {S : Type} [DecidableEq S] (sigAt : Nat → S) (last : Nat) :
    ∀ (n d f : Nat), f < d → d + n = last + 1 →
      tilesB f (winGo sigAt last (List.range' d n) f (sigAt f) []) last = true
      ∧ SigsDiffer sigAt (winGo sigAt last (List.range' d n) f (sigAt f) [])
      ∧ ∃ b, (winGo sigAt last (List.range' d n) f (sigAt f) []).head? = some (f, b) := by
  intro n
  induction n with
  | zero =>
      intro d f hfd harith
      refine ⟨?_, ?_, ⟨last, rfl⟩⟩
      · show tilesB f [(f, last)] last = true
        simp [tilesB]
        omega
      · show SigsDiffer sigAt [(f, last)]
        trivial
  | succ n ih =>
      intro d f hfd harith
      have hrange : List.range' d (n + 1) = d :: List.range' (d + 1) n := by
        rw [List.range'_succ]
      rw [hrange]
      by_cases h : sigAt d = sigAt f
      · have hgo : winGo sigAt last (d :: List.range' (d + 1) n) f (sigAt f) []
            = winGo sigAt last (List.range' (d + 1) n) f (sigAt f) [] := by
          simp only [winGo, if_pos h]
        rw [hgo]
        exact ih (d + 1) f (by omega) (by omega)
      · have hgo : winGo sigAt last (d :: List.range' (d + 1) n) f (sigAt f) []
            = [(f, d - 1)] ++ winGo sigAt last (List.range' (d + 1) n) d (sigAt d) [] := by
          simp only [winGo, if_neg h]
          rw [winGo_append]
          simp
        rw [hgo]
        obtain ⟨ht, hs, b, hb⟩ := ih (d + 1) d (by omega) (by omega)
        cases hW : winGo sigAt last (List.range' (d + 1) n) d (sigAt d) [] with
        | nil => rw [hW] at hb; simp at hb
        | cons p tl =>
            rw [hW] at hb ht hs
            have hp : p = (d, b) := by
              simpa using hb
            subst hp
            refine ⟨?_, ?_, ⟨d - 1, rfl⟩⟩
            · show tilesB f ((f, d - 1) :: (d, b) :: tl) last = true
              have hd1 : d - 1 + 1 = d := by omega
              simp only [tilesB, hd1]
              simp only [ht]
              simp
              omega
            · exact ⟨fun heq => h heq.symm, hs⟩

/-- C3: for a positive horizon the scanner's windows tile
`[start, start + N]` exactly — chronologically ordered, contiguous,
non-overlapping inclusive spans — and consecutive windows carry different
active-service signatures at their opening days; a non-positive horizon
yields the empty list.  The SHA-1 signature is abstracted: the statement
holds for every signature function `sig`. -/
theorem c3_window_tiling :
    ∀ {S : Type} [_inst : DecidableEq S] (sig : Finset String → S) (start : Nat)
      (days : Int) (cal : List CalRow) (cd : List CDRow),
      (days ≤ 0 → effective_windows sig start days cal cd = [])
      ∧ (0 < days →
          tilesB start (effective_windows sig start days cal cd)
              (start + days.toNat) = true
          ∧ SigsDiffer (fun d => sig (active_services_on d cal cd))
              (effective_windows sig start days cal cd)) := by
  intro S _inst sig start days cal cd
  constructor
  · intro h
    simp [effective_windows, h]
  · intro h
    have hne : ¬ days ≤ 0 := by omega
    simp only [effective_windows, if_neg hne]
    have hspec := winGo_spec (fun d => sig (active_services_on d cal cd))
      (start + days.toNat) days.toNat (start + 1) start (by omega) (by omega)
    exact ⟨hspec.1, hspec.2.1⟩

/-- Witness for C3: a three-day horizon over an empty feed produces a tiling
of `[5, 8]`, and horizon `-1` produces no windows. -/
theorem c3_window_tiling_witness :
    ((0 : Int) < 3
     ∧ tilesB 5 (effective_windows (fun st : Finset String => st.card) 5 3 [] [])
         (5 + (3 : Int).toNat) = true
     ∧ SigsDiffer (fun d => (active_services_on d [] []).card)
         (effective_windows (fun st : Finset String => st.card) 5 3 [] []))
    ∧ ((-1 : Int) ≤ 0
       ∧ effective_windows (fun st : Finset String => st.card) 5 (-1) [] [] = []) :=
  ⟨⟨by decide,
    (c3_window_tiling (fun st : Finset String => st.card) 5 3 [] []).2 (by decide)⟩,
   ⟨by decide,
    (c3_window_tiling (fun st : Finset String => st.card) 5 (-1) [] []).1 (by decide)⟩⟩

theorem weeklyHit_iff (D : Nat) (c : CalRow) :
    weeklyHit D c = true
      ↔ ∃ st en, yyyymmdd_to_date c.start_date = some st
          ∧ yyyymmdd_to_date c.end_date = some en
          ∧ st ≤ D ∧ D ≤ en
          ∧ (weekday_mask c).getD (wd D) false = true := by
  unfold weeklyHit
  cases h1 : yyyymmdd_to_date c.start_date with
  | none => simp [h1]
  | some st =>
      cases h2 : yyyymmdd_to_date c.end_date with
      | none => simp [h1, h2]
      | some en =>
          simp [h1, h2, Bool.and_assoc, and_assoc]

theorem weeklyFold_mem (D : Nat) (cal : List CalRow) :
    ∀ (acc : Finset String) (s : String),
      (s ∈ cal.foldl
          (fun acc c => if weeklyHit D c then insert c.service_id acc else acc) acc
       ↔ s ∈ acc ∨ ∃ c ∈ cal, c.service_id = s ∧ weeklyHit D c = true) := by
  induction cal with
  | nil => simp
  | cons c rest ih =>
      intro acc s
      simp only [List.foldl_cons]
      rw [ih]
      by_cases h : weeklyHit D c = true
      · rw [if_pos h]
        simp only [Finset.mem_insert, List.mem_cons]
        constructor
        · rintro ((rfl | hacc) | ⟨c', hc', hcs, hhit⟩)
          · exact Or.inr ⟨c, Or.inl rfl, rfl, h⟩
          · exact Or.inl hacc
          · exact Or.inr ⟨c', Or.inr hc', hcs, hhit⟩
        · rintro (hacc | ⟨c', (rfl | hc'), hcs, hhit⟩)
          · exact Or.inl (Or.inr hacc)
          · exact Or.inl (Or.inl hcs.symm)
          · exact Or.inr ⟨c', hc', hcs, hhit⟩
      · rw [if_neg h]
        simp only [List.mem_cons]
        constructor
        · rintro (hacc | ⟨c', hc', hcs, hhit⟩)
          · exact Or.inl hacc
          · exact Or.inr ⟨c', Or.inr hc', hcs, hhit⟩
        · rintro (hacc | ⟨c', (rfl | hc'), hcs, hhit⟩)
          · exact Or.inl hacc
          · exact absurd hhit h
          · exact Or.inr ⟨c', hc', hcs, hhit⟩

/-- The predicate picking out the exception rows that decide membership of
service `s` on the date with key `key`: matching date, matching service, and
an interpreted exception type. -/
def relevantExc (key s : String) (e : CDRow) : Bool :=
  e.date == key && e.service_id == s
    && (e.exception_type == "1" || e.exception_type == "2")

theorem mem_applyExc_irrelevant {key s : String} {e : CDRow}
    (h : relevantExc key s e = false) (X : Finset String) :
    s ∈ applyExc key X e ↔ s ∈ X := by
  unfold applyExc
  by_cases hd : e.date = key
  · rw [if_pos hd]
    by_cases h1 : e.exception_type = "1"
    · rw [if_pos h1]
      have hsid : e.service_id ≠ s := by
        intro hc
        rw [relevantExc] at h
        simp [hd, hc, h1] at h
      have hne : s ≠ e.service_id := fun hc => hsid hc.symm
      simp [Finset.mem_insert, hne]
    · rw [if_neg h1]
      by_cases h2 : e.exception_type = "2"
      · rw [if_pos h2]
        have hsid : e.service_id ≠ s := by
          intro hc
          rw [relevantExc] at h
          simp [hd, hc, h2] at h
        have hne : s ≠ e.service_id := fun hc => hsid hc.symm
        simp [Finset.mem_erase, hne]
      · rw [if_neg h2]
  · rw [if_neg hd]

theorem excFold_mem (key s : String) :
    ∀ (cd : List CDRow) (init : Finset String),
      (s ∈ cd.foldl (applyExc key) init
       ↔ match (cd.filter (relevantExc key s)).getLast? with
         | some e => e.exception_type = "1"
         | none => s ∈ init) := by
  intro cd
  induction cd using List.reverseRecOn with
  | nil => intro init; simp
  | append_singleton cd e ih =>
      intro init
      rw [List.foldl_append, List.filter_append]
      simp only [List.foldl_cons, List.foldl_nil]
      by_cases hrel : relevantExc key s e = true
      · have hfe : List.filter (relevantExc key s) [e] = [e] := by
          simp [hrel]
        rw [hfe, List.getLast?_concat]
        have hd : e.date = key := by
          rw [relevantExc] at hrel
          simp at hrel
          exact hrel.1.1
        have hsid : e.service_id = s := by
          rw [relevantExc] at hrel
          simp at hrel
          exact hrel.1.2
        unfold applyExc
        rw [if_pos hd]
        by_cases h1 : e.exception_type = "1"
        · rw [if_pos h1, hsid]
          simp [h1]
        · have h2 : e.exception_type = "2" := by
            rw [relevantExc] at hrel
            simp at hrel
            rcases hrel.2 with ha | hb
            · exact absurd ha h1
            · exact hb
          rw [if_neg h1, if_pos h2, hsid]
          simp [Finset.mem_erase, h2, h1]
      · have hfe : List.filter (relevantExc key s) [e] = [] := by
          simp [Bool.of_not_eq_true hrel]
        rw [hfe, List.append_nil]
        rw [mem_applyExc_irrelevant (Bool.of_not_eq_true hrel)]
        exact ih init

/-- Spec wording (§4.1): service `s` is weekly-active on ordinal `D` when
some calendar row for `s` has parseable start and end dates bracketing `D`
and its Monday-first weekday mask (Monday = index 0 … Sunday = index 6) is
set at `D`'s weekday (`wd D`, which is `0` exactly on Mondays). -/
def WeeklyActiveOn (D : Nat) (cal : List CalRow) (s : String) : Prop :=
  ∃ c ∈ cal, c.service_id = s
    ∧ ∃ st en, yyyymmdd_to_date c.start_date = some st
        ∧ yyyymmdd_to_date c.end_date = some en
        ∧ st ≤ D ∧ D ≤ en
        ∧ (weekday_mask c).getD (wd D) false = true

/-- C4: membership in `active_services_on` is decided by the last exception
row for `(s, D)` whose type is Add or Remove — Add wins, Remove loses, both
overriding the weekly calendars — and in the absence of such a row by the
weekly rule: some calendar row for `s` with parsed `[start_date, end_date]`
containing `D` and the Monday-first mask bit set at `D`'s weekday
(unparseable or missing dates match nothing).  Exceptions are applied in
input order, so the last relevant one decides. -/
theorem c4_active_services_on :
    ∀ (D : Nat) (cal : List CalRow) (cd : List CDRow) (s : String),
      s ∈ active_services_on D cal cd
        ↔ match (cd.filter (relevantExc (date_to_yyyymmdd D) s)).getLast? with
          | some e => e.exception_type = "1"
          | none => WeeklyActiveOn D cal s := by
  intro D cal cd s
  unfold active_services_on
  rw [excFold_mem]
  cases hL : (cd.filter (relevantExc (date_to_yyyymmdd D) s)).getLast? with
  | some e => simp
  | none =>
      simp only
      rw [weeklyFold_mem]
      simp only [Finset.not_mem_empty, false_or]
      unfold WeeklyActiveOn
      constructor
      · rintro ⟨c, hc, hcs, hhit⟩
        exact ⟨c, hc, hcs, (weeklyHit_iff D c).mp hhit⟩
      · rintro ⟨c, hc, hcs, hrest⟩
        exact ⟨c, hc, hcs, (weeklyHit_iff D c).mpr hrest⟩

/-- Witness for C4: on 2024-01-08 (a Monday) a Mon-Fri calendar activates
service `"A"`; a Remove exception that day deletes it; an Add exception
activates the calendarless `"B"`. -/
theorem c4_active_services_on_witness :
    ("A" ∈ active_services_on (toOrd 2024 1 8)
        [⟨"A", "1", "1", "1", "1", "1", "0", "0", "20240101", "20240131"⟩] []
      ↔ match (([] : List CDRow).filter
            (relevantExc (date_to_yyyymmdd (toOrd 2024 1 8)) "A")).getLast? with
        | some e => e.exception_type = "1"
        | none => WeeklyActiveOn (toOrd 2024 1 8)
            [⟨"A", "1", "1", "1", "1", "1", "0", "0", "20240101", "20240131"⟩] "A")
    ∧ ("B" ∈ active_services_on (toOrd 2024 1 8)
        [⟨"A", "1", "1", "1", "1", "1", "0", "0", "20240101", "20240131"⟩]
        [⟨"B", "20240108", "1"⟩]
      ↔ match ([(⟨"B", "20240108", "1"⟩ : CDRow)].filter
            (relevantExc (date_to_yyyymmdd (toOrd 2024 1 8)) "B")).getLast? with
        | some e => e.exception_type = "1"
        | none => WeeklyActiveOn (toOrd 2024 1 8)
            [⟨"A", "1", "1", "1", "1", "1", "0", "0", "20240101", "20240131"⟩] "B") :=
  ⟨c4_active_services_on (toOrd 2024 1 8)
      [⟨"A", "1", "1", "1", "1", "1", "0", "0", "20240101", "20240131"⟩] [] "A",
   c4_active_services_on (toOrd 2024 1 8)
      [⟨"A", "1", "1", "1", "1", "1", "0", "0", "20240101", "20240131"⟩]
      [⟨"B", "20240108", "1"⟩] "B"⟩

theorem specStage4Pick_singleton (x : String) : specStage4Pick [x] = x := by
  unfold specStage4Pick
  split_ifs <;> rfl

theorem stage4_winner (c r : List String) :
    (stage4 c r).1 = some (specStage4Pick c) := by
  unfold stage4 specStage4Pick
  split_ifs <;> rfl

theorem stage3_winner (m : String → Metrics) (c r : List String) :
    (stage3 m c r).1 = some (spec3Pick m c) := by
  unfold stage3 spec3Pick filterMaxOpt
  cases h : maxOfList (c.filterMap (fun s => (m s).start_date)) with
  | some ms =>
      simp only
      by_cases hlen : (c.filter (fun s => (m s).start_date == some ms)).length = 1
      · rw [if_pos hlen, if_pos hlen]
        obtain ⟨x, _, hh, hd⟩ := length_one_head? hlen
        rw [hh, hd]
      · rw [if_neg hlen, if_neg hlen, stage4_winner]
  | none =>
      simp only
      rw [stage4_winner]
      by_cases hlen : c.length = 1
      · rw [if_pos hlen]
        obtain ⟨x, hx, _, hd⟩ := length_one_head? hlen
        rw [hd, hx, specStage4Pick_singleton]
      · rw [if_neg hlen]

theorem spec3Pick_singleton (m : String → Metrics) (x : String) :
    spec3Pick m [x] = x := by
  unfold spec3Pick filterMaxOpt
  cases h : maxOfList ([x].filterMap (fun s => (m s).start_date)) with
  | some ms =>
      simp only
      have hms : (m x).start_date = some ms := by
        have := maxOfList_mem h
        simp only [List.mem_filterMap, List.mem_singleton] at this
        obtain ⟨s, rfl, hv⟩ := this
        exact hv
      simp [hms]
  | none => simp

theorem stage2_winner (m : String → Metrics) (c r : List String) :
    (stage2 m c r).1 = some (spec2Pick m c) := by
  unfold stage2 spec2Pick filterMaxNat
  by_cases hlen : (c.filter (fun s => (m s).active_after_pivot
      == maxNat (c.map (fun s => (m s).active_after_pivot)))).length = 1
  · rw [if_pos hlen, if_pos hlen]
    obtain ⟨x, _, hh, hd⟩ := length_one_head? hlen
    rw [hh, hd]
  · rw [if_neg hlen, if_neg hlen, stage3_winner]

theorem spec2Pick_singleton (m : String → Metrics) (x : String) :
    spec2Pick m [x] = x := by
  unfold spec2Pick filterMaxNat
  have hmx : maxNat [(m x).active_after_pivot] = (m x).active_after_pivot := by
    show List.foldl max 0 [(m x).active_after_pivot] = (m x).active_after_pivot
    simp [Nat.zero_max]
  simp [hmx]

theorem stage1_winner (m : String → Metrics) (services : List String) :
    (stage1 m services).1 = some (specChainWinner m services) := by
  unfold stage1 specChainWinner filterMaxOpt
  cases h : maxOfList (services.filterMap (fun s => (m s).last_active_date)) with
  | some ml =>
      simp only
      by_cases hlen : (services.filter
          (fun s => (m s).last_active_date == some ml)).length = 1
      · rw [if_pos hlen, if_pos hlen]
        obtain ⟨x, _, hh, hd⟩ := length_one_head? hlen
        rw [hh, hd]
      · rw [if_neg hlen, if_neg hlen, stage2_winner]
  | none =>
      simp only
      rw [stage2_winner]
      by_cases hlen : services.length = 1
      · rw [if_pos hlen]
        obtain ⟨x, hx, _, hd⟩ := length_one_head? hlen
        rw [hd, hx, spec2Pick_singleton]
      · rw [if_neg hlen]

theorem specChainWinner_singleton (m : String → Metrics) (x : String) :
    specChainWinner m [x] = x := by
  unfold specChainWinner filterMaxOpt
  cases h : maxOfList ([x].filterMap (fun s => (m s).last_active_date)) with
  | some ml =>
      simp only
      have hml : (m x).last_active_date = some ml := by
        have := maxOfList_mem h
        simp only [List.mem_filterMap, List.mem_singleton] at this
        obtain ⟨s, rfl, hv⟩ := this
        exact hv
      simp [hml]
  | none => simp

theorem stage2_strict_after_pivot {m : String → Metrics} {a b : String}
    (hlt : (m a).active_after_pivot < (m b).active_after_pivot) (r : List String) :
    stage2 m [a, b] r
      = (some b,
         r ++ ["Most active days after pivot ("
            ++ toString ((m b).active_after_pivot) ++ " days)"], false) := by
  have hmx : maxNat ([a, b].map (fun s => (m s).active_after_pivot))
      = (m b).active_after_pivot := by
    show List.foldl max 0 [(m a).active_after_pivot, (m b).active_after_pivot]
        = (m b).active_after_pivot
    simp only [List.foldl_cons, List.foldl_nil, Nat.zero_max]
    exact Nat.max_eq_right (le_of_lt hlt)
  have hane : ((m a).active_after_pivot == (m b).active_after_pivot) = false := by
    simp only [beq_eq_false_iff_ne, ne_eq]
    omega
  unfold stage2
  rw [hmx]
  simp only [List.filter, hane, beq_self_eq_true]
  rfl

/-- C1: whenever the resolver does not declare the group ambiguous, its
winner is exactly the spec's ordered elimination chain applied to the same
metrics — stage 1 highest `last_active_date` (absent losing), stage 2 highest
`active_after_pivot`, stage 3 highest `start_date` (absent losing), stage 4
numeric-else-lexicographic largest id — the first stage narrowing the pool to
one candidate deciding; and in particular two candidates tied on
`last_active_date` are split by a strictly larger after-pivot count, the
winner's reasons citing that count. -/
theorem c1_elimination_chain :
    (∀ (services : List String) (calendars : String → Option CalRow)
       (cds : List CDRow) (pivot ov : Nat),
      services ≠ [] →
      (choose_service_winner_factual services calendars cds pivot ov).2.2 = false →
      (choose_service_winner_factual services calendars cds pivot ov).1
        = some (specChainWinner (resolverMetrics calendars cds pivot) services))
    ∧ (∀ (a b : String) (calendars : String → Option CalRow)
         (cds : List CDRow) (pivot ov : Nat),
      (resolverMetrics calendars cds pivot a).last_active_date
        = (resolverMetrics calendars cds pivot b).last_active_date →
      (resolverMetrics calendars cds pivot a).active_after_pivot
        < (resolverMetrics calendars cds pivot b).active_after_pivot →
      ¬ ov < maxPairOverlap (resolverMetrics calendars cds pivot) [a, b] →
      (choose_service_winner_factual [a, b] calendars cds pivot ov).1 = some b
      ∧ ("Most active days after pivot ("
           ++ toString ((resolverMetrics calendars cds pivot b).active_after_pivot)
           ++ " days)")
          ∈ (choose_service_winner_factual [a, b] calendars cds pivot ov).2.1) := by
  constructor
  · intro services calendars cds pivot ov hne hamb
    by_cases hlen : services.length ≤ 1
    · cases services with
      | nil => exact absurd rfl hne
      | cons s t =>
          cases t with
          | nil =>
              simp only [choose_service_winner_factual, if_pos hlen]
              rw [specChainWinner_singleton]
              rfl
          | cons s' t' => simp at hlen
    · by_cases hov : ov < maxPairOverlap (resolverMetrics calendars cds pivot) services
      · exfalso
        have : (choose_service_winner_factual services calendars cds pivot ov).2.2
            = true := by
          simp only [choose_service_winner_factual, if_neg hlen, if_pos hov]
        rw [this] at hamb
        simp at hamb
      · simp only [choose_service_winner_factual, if_neg hlen, if_neg hov]
        exact stage1_winner _ _
  · intro a b calendars cds pivot ov hlast hlt hov
    have hlen : ¬ ([a, b] : List String).length ≤ 1 := by simp
    have hchain : choose_service_winner_factual [a, b] calendars cds pivot ov
        = stage1 (resolverMetrics calendars cds pivot) [a, b] := by
      simp only [choose_service_winner_factual, if_neg hlen, if_neg hov]
    rw [hchain]
    set m := resolverMetrics calendars cds pivot with hm
    cases hb : (m b).last_active_date with
    | none =>
        have ha : (m a).last_active_date = none := by rw [hlast, hb]
        have hfm : ([a, b].filterMap (fun s => (m s).last_active_date)) = [] := by
          simp [List.filterMap, ha, hb]
        have h1 : stage1 m [a, b] = stage2 m [a, b] [] := by
          unfold stage1
          rw [hfm]
          rfl
        rw [h1, stage2_strict_after_pivot hlt]
        exact ⟨rfl, by simp⟩
    | some v =>
        have ha : (m a).last_active_date = some v := by rw [hlast, hb]
        have hfm : ([a, b].filterMap (fun s => (m s).last_active_date)) = [v, v] := by
          simp [List.filterMap, ha, hb]
        have hmax : maxOfList ([a, b].filterMap (fun s => (m s).last_active_date))
            = some v := by
          rw [hfm]
          simp [maxOfList]
        have hfilter : ([a, b].filter (fun s => (m s).last_active_date == some v))
            = [a, b] := by
          simp [List.filter, ha, hb]
        have h1 : stage1 m [a, b]
            = stage2 m [a, b] ["Tied on last_active_date: " ++ fmtDash v] := by
          unfold stage1
          rw [hmax]
          simp only [hfilter]
          rfl
        rw [h1, stage2_strict_after_pivot hlt]
        exact ⟨rfl, by simp⟩

/-- Witness for C1: services `"100"` (Mon-Fri 2024-01-08 … 2024-01-26) and
`"101"` (Mon-Fri 2024-01-01 … 2024-01-26) tie on `last_active_date`; `"101"`
has strictly more active days after the pivot 2024-01-01 and wins with the
after-pivot reason. -/
theorem c1_elimination_chain_witness :
    ((["100", "101"] : List String) ≠ []
     ∧ (choose_service_winner_factual ["100", "101"]
          (calendarsDict
            [⟨"100", "1", "1", "1", "1", "1", "0", "0", "20240108", "20240126"⟩,
             ⟨"101", "1", "1", "1", "1", "1", "0", "0", "20240101", "20240126"⟩])
          [] (toOrd 2024 1 1) 45).2.2 = false
     ∧ (choose_service_winner_factual ["100", "101"]
          (calendarsDict
            [⟨"100", "1", "1", "1", "1", "1", "0", "0", "20240108", "20240126"⟩,
             ⟨"101", "1", "1", "1", "1", "1", "0", "0", "20240101", "20240126"⟩])
          [] (toOrd 2024 1 1) 45).1
         = some (specChainWinner
             (resolverMetrics
               (calendarsDict
                 [⟨"100", "1", "1", "1", "1", "1", "0", "0", "20240108", "20240126"⟩,
                  ⟨"101", "1", "1", "1", "1", "1", "0", "0", "20240101", "20240126"⟩])
               [] (toOrd 2024 1 1)) ["100", "101"]))
    ∧ ((resolverMetrics
          (calendarsDict
            [⟨"100", "1", "1", "1", "1", "1", "0", "0", "20240108", "20240126"⟩,
             ⟨"101", "1", "1", "1", "1", "1", "0", "0", "20240101", "20240126"⟩])
          [] (toOrd 2024 1 1) "100").last_active_date
         = (resolverMetrics
             (calendarsDict
               [⟨"100", "1", "1", "1", "1", "1", "0", "0", "20240108", "20240126"⟩,
                ⟨"101", "1", "1", "1", "1", "1", "0", "0", "20240101", "20240126"⟩])
             [] (toOrd 2024 1 1) "101").last_active_date
       ∧ (resolverMetrics
            (calendarsDict
              [⟨"100", "1", "1", "1", "1", "1", "0", "0", "20240108", "20240126"⟩,
               ⟨"101", "1", "1", "1", "1", "1", "0", "0", "20240101", "20240126"⟩])
            [] (toOrd 2024 1 1) "100").active_after_pivot
         < (resolverMetrics
             (calendarsDict
               [⟨"100", "1", "1", "1", "1", "1", "0", "0", "20240108", "20240126"⟩,
                ⟨"101", "1", "1", "1", "1", "1", "0", "0", "20240101", "20240126"⟩])
             [] (toOrd 2024 1 1) "101").active_after_pivot
       ∧ ((choose_service_winner_factual ["100", "101"]
             (calendarsDict
               [⟨"100", "1", "1", "1", "1", "1", "0", "0", "20240108", "20240126"⟩,
                ⟨"101", "1", "1", "1", "1", "1", "0", "0", "20240101", "20240126"⟩])
             [] (toOrd 2024 1 1) 45).1 = some "101"
          ∧ ("Most active days after pivot ("
               ++ toString ((resolverMetrics
                    (calendarsDict
                      [⟨"100", "1", "1", "1", "1", "1", "0", "0", "20240108", "20240126"⟩,
                       ⟨"101", "1", "1", "1", "1", "1", "0", "0", "20240101", "20240126"⟩])
                    [] (toOrd 2024 1 1) "101").active_after_pivot)
               ++ " days)")
              ∈ (choose_service_winner_factual ["100", "101"]
                  (calendarsDict
                    [⟨"100", "1", "1", "1", "1", "1", "0", "0", "20240108", "20240126"⟩,
                     ⟨"101", "1", "1", "1", "1", "1", "0", "0", "20240101", "20240126"⟩])
                  [] (toOrd 2024 1 1) 45).2.1)) :=
  ⟨⟨by decide, by decide,
    c1_elimination_chain.1 ["100", "101"]
      (calendarsDict
        [⟨"100", "1", "1", "1", "1", "1", "0", "0", "20240108", "20240126"⟩,
         ⟨"101", "1", "1", "1", "1", "1", "0", "0", "20240101", "20240126"⟩])
      [] (toOrd 2024 1 1) 45 (by decide) (by decide)⟩,
   by decide, by decide,
   c1_elimination_chain.2 "100" "101"
     (calendarsDict
       [⟨"100", "1", "1", "1", "1", "1", "0", "0", "20240108", "20240126"⟩,
        ⟨"101", "1", "1", "1", "1", "1", "0", "0", "20240101", "20240126"⟩])
     [] (toOrd 2024 1 1) 45 (by decide) (by decide) (by decide)⟩

theorem serviceRoutes_toFinset_aux (sid : String) (hsid : sid ≠ "") :
    ∀ (ts : List TripRow) (mp : String → List String),
      ((ts.foldl (fun mp t =>
          if t.service_id = "" then mp
          else fun s =>
            if s = t.service_id then
              (if routeOf t ∈ mp s then mp s else routeOf t :: mp s)
            else mp s) mp) sid).toFinset
        = (mp sid).toFinset
            ∪ ((ts.filter (fun t => t.service_id == sid)).map routeOf).toFinset := by
  intro ts
  induction ts with
  | nil => intro mp; simp
  | cons t rest ih =>
      intro mp
      simp only [List.foldl_cons]
      rw [ih]
      by_cases hemp : t.service_id = ""
      · have h1 : "" ≠ sid := fun e => hsid e.symm
        simp [List.filter_cons, hemp, h1]
      · by_cases hm : sid = t.service_id
        · subst hm
          have hins : (if routeOf t ∈ mp t.service_id then mp t.service_id
              else routeOf t :: mp t.service_id).toFinset
                = insert (routeOf t) (mp t.service_id).toFinset := by
            by_cases hrt : routeOf t ∈ mp t.service_id
            · rw [if_pos hrt]
              exact (Finset.insert_eq_self.mpr (List.mem_toFinset.mpr hrt)).symm
            · rw [if_neg hrt, List.toFinset_cons]
          simp [List.filter_cons, if_neg hemp, hins, Finset.insert_union,
            Finset.union_insert]
        · have h1 : t.service_id ≠ sid := fun e => hm e.symm
          simp [List.filter_cons, if_neg hemp, if_neg hm, h1]

theorem serviceRoutes_toFinset (trips : List TripRow) (sid : String)
    (hsid : sid ≠ "") :
    (serviceRoutes trips sid).toFinset
      = ((trips.filter (fun t => t.service_id == sid)).map routeOf).toFinset := by
  have h := serviceRoutes_toFinset_aux sid hsid trips (fun _ => [])
  simpa [serviceRoutes] using h

theorem serviceRoutes_nodup_aux (sid : String) :
    ∀ (ts : List TripRow) (mp : String → List String),
      (mp sid).Nodup →
      ((ts.foldl (fun mp t =>
          if t.service_id = "" then mp
          else fun s =>
            if s = t.service_id then
              (if routeOf t ∈ mp s then mp s else routeOf t :: mp s)
            else mp s) mp) sid).Nodup := by
  intro ts
  induction ts with
  | nil => intro mp h; simpa using h
  | cons t rest ih =>
      intro mp h
      simp only [List.foldl_cons]
      apply ih
      by_cases hemp : t.service_id = ""
      · rw [if_pos hemp]; exact h
      · rw [if_neg hemp]
        by_cases hm : sid = t.service_id
        · rw [if_pos hm]
          by_cases hrt : routeOf t ∈ mp sid
          · rw [if_pos hrt]; exact h
          · rw [if_neg hrt]
            exact List.Nodup.cons hrt h
        · rw [if_neg hm]; exact h

theorem serviceRoutes_nodup (trips : List TripRow) (sid : String) :
    (serviceRoutes trips sid).Nodup :=
  serviceRoutes_nodup_aux sid trips (fun _ => []) List.nodup_nil

theorem perm_toFinset {α : Type} [DecidableEq α] {l l' : List α}
    (h : l.Perm l') : l.toFinset = l'.toFinset := by
  apply Finset.ext
  intro a
  simp only [List.mem_toFinset]
  exact h.mem_iff

theorem groupList_mem {cal : List CalRow} {trips : List TripRow}
    {k : List Bool × List String} {sids : List String}
    (h : (k, sids) ∈ groupList cal trips) :
    sids = ((cal.filter (fun c => c.service_id != "")).filter
        (fun c => groupKeyOf trips c == k)).map (fun c => c.service_id) := by
  unfold groupList at h
  simp only [List.mem_map] at h
  obtain ⟨k', _, heq⟩ := h
  have h1 := (Prod.mk.injEq _ _ _ _).mp heq
  rw [← h1.1]
  exact h1.2.symm

/-- C7: under the data-model invariant that calendar rows carry distinct
service ids, every calendar row with a truthy `service_id` lands in exactly
one group — the one keyed by its weekday mask paired with the sorted,
duplicate-free route set of its trips, where a trip without a `route_id`
contributes the unknown-route sentinel and a service owning no trip gets the
sentinel singleton. -/
theorem c7_grouping_partition :
    ∀ (cal : List CalRow) (trips : List TripRow),
      (cal.map (fun c => c.service_id)).Nodup →
      ∀ c ∈ cal, c.service_id ≠ "" →
      ∃ sids,
        (groupKeyOf trips c, sids) ∈ groupList cal trips
        ∧ c.service_id ∈ sids
        ∧ (∀ k' sids', (k', sids') ∈ groupList cal trips →
             c.service_id ∈ sids' → k' = groupKeyOf trips c ∧ sids' = sids)
        ∧ groupKeyOf trips c = (weekday_mask c, routesKey trips c.service_id)
        ∧ (routesKey trips c.service_id).toFinset
            = (if trips.filter (fun t => t.service_id == c.service_id) = []
               then {UNKNOWN_ROUTE_ID}
               else ((trips.filter (fun t => t.service_id == c.service_id)).map
                   routeOf).toFinset)
        ∧ List.Sorted (· ≤ ·) (routesKey trips c.service_id)
        ∧ (routesKey trips c.service_id).Nodup := by
  intro cal trips hnodup c hc hne
  have hcv : c ∈ cal.filter (fun c => c.service_id != "") :=
    List.mem_filter.mpr ⟨hc, by simp [hne]⟩
  refine ⟨((cal.filter (fun c => c.service_id != "")).filter
      (fun d => groupKeyOf trips d == groupKeyOf trips c)).map (fun d => d.service_id),
    ?_, ?_, ?_, rfl, ?_, ?_, ?_⟩
  · unfold groupList
    exact List.mem_map.mpr ⟨groupKeyOf trips c,
      List.mem_dedup.mpr (List.mem_map_of_mem _ hcv), rfl⟩
  · exact List.mem_map.mpr ⟨c, List.mem_filter.mpr ⟨hcv, by simp⟩, rfl⟩
  · intro k' sids' hmem hsid'
    have hsids' := groupList_mem hmem
    rw [hsids'] at hsid'
    obtain ⟨d, hd, hds⟩ := List.mem_map.mp hsid'
    have hd1 := (List.mem_filter.mp hd).1
    have hd2 : groupKeyOf trips d = k' := by
      have := (List.mem_filter.mp hd).2
      simpa using this
    have hdc : d = c :=
      List.inj_on_of_nodup_map hnodup ((List.mem_filter.mp hd1).1) hc hds
    subst hdc
    refine ⟨hd2.symm, ?_⟩
    rw [hsids', ← hd2]
  · have hsr := serviceRoutes_toFinset trips c.service_id hne
    by_cases hf : trips.filter (fun t => t.service_id == c.service_id) = []
    · rw [if_pos hf]
      have hrs : serviceRoutes trips c.service_id = [] := by
        rw [hf] at hsr
        simp only [List.map_nil, List.toFinset_nil] at hsr
        exact (List.toFinset_eq_empty_iff _).mp hsr
      simp only [routesKey, hrs]
      simp
    · rw [if_neg hf]
      have hrs : serviceRoutes trips c.service_id ≠ [] := by
        intro hcon
        rw [hcon] at hsr
        simp only [List.toFinset_nil] at hsr
        have := (List.toFinset_eq_empty_iff _).mp
          (by rw [← hsr])
        exact hf ((List.map_eq_nil_iff).mp this)
      simp only [routesKey, if_neg hrs]
      have hperm := List.perm_insertionSort (fun a b => strLeB a b = true)
        (serviceRoutes trips c.service_id)
      rw [perm_toFinset hperm]
      exact hsr
  · haveI htot : IsTotal String (fun a b => strLeB a b = true) := ⟨fun a b => by
      rw [strLeB_iff, strLeB_iff]
      exact le_total a b⟩
    haveI htrans : IsTrans String (fun a b => strLeB a b = true) := ⟨fun a b c hab hbc => by
      rw [strLeB_iff] at hab hbc ⊢
      exact le_trans hab hbc⟩
    have hsorted := List.sorted_insertionSort (fun a b => strLeB a b = true)
      (if serviceRoutes trips c.service_id = [] then [UNKNOWN_ROUTE_ID]
       else serviceRoutes trips c.service_id)
    exact List.Pairwise.imp (fun h => (strLeB_iff _ _).mp h) hsorted
  · have hperm := List.perm_insertionSort (fun a b => strLeB a b = true)
      (if serviceRoutes trips c.service_id = [] then [UNKNOWN_ROUTE_ID]
       else serviceRoutes trips c.service_id)
    apply (List.Perm.nodup_iff hperm).mpr
    by_cases hrs : serviceRoutes trips c.service_id = []
    · rw [if_pos hrs]
      simp
    · rw [if_neg hrs]
      exact serviceRoutes_nodup trips c.service_id

/-- Witness for C7: two calendar rows with distinct ids; `"A"` has a trip on
route `"r1"` and a routeless trip, `"B"` has no trips. -/
theorem c7_grouping_partition_witness :
    (([⟨"A", "1", "0", "0", "0", "0", "0", "0", "20240101", "20240131"⟩,
       ⟨"B", "1", "0", "0", "0", "0", "0", "0", "20240101", "20240131"⟩] :
        List CalRow).map (fun c => c.service_id)).Nodup
    ∧ (⟨"A", "1", "0", "0", "0", "0", "0", "0", "20240101", "20240131"⟩ : CalRow)
        ∈ ([⟨"A", "1", "0", "0", "0", "0", "0", "0", "20240101", "20240131"⟩,
            ⟨"B", "1", "0", "0", "0", "0", "0", "0", "20240101", "20240131"⟩] :
           List CalRow)
    ∧ (⟨"A", "1", "0", "0", "0", "0", "0", "0", "20240101", "20240131"⟩ : CalRow).service_id ≠ ""
    ∧ ∃ sids,
        (groupKeyOf [⟨"t1", "A", "r1"⟩, ⟨"t2", "A", ""⟩]
            ⟨"A", "1", "0", "0", "0", "0", "0", "0", "20240101", "20240131"⟩, sids)
          ∈ groupList
              [⟨"A", "1", "0", "0", "0", "0", "0", "0", "20240101", "20240131"⟩,
               ⟨"B", "1", "0", "0", "0", "0", "0", "0", "20240101", "20240131"⟩]
              [⟨"t1", "A", "r1"⟩, ⟨"t2", "A", ""⟩]
        ∧ (⟨"A", "1", "0", "0", "0", "0", "0", "0", "20240101", "20240131"⟩ : CalRow).service_id ∈ sids
        ∧ (∀ k' sids',
             (k', sids') ∈ groupList
               [⟨"A", "1", "0", "0", "0", "0", "0", "0", "20240101", "20240131"⟩,
                ⟨"B", "1", "0", "0", "0", "0", "0", "0", "20240101", "20240131"⟩]
               [⟨"t1", "A", "r1"⟩, ⟨"t2", "A", ""⟩] →
             (⟨"A", "1", "0", "0", "0", "0", "0", "0", "20240101", "20240131"⟩ : CalRow).service_id ∈ sids' →
             k' = groupKeyOf [⟨"t1", "A", "r1"⟩, ⟨"t2", "A", ""⟩]
               ⟨"A", "1", "0", "0", "0", "0", "0", "0", "20240101", "20240131"⟩ ∧ sids' = sids)
        ∧ groupKeyOf [⟨"t1", "A", "r1"⟩, ⟨"t2", "A", ""⟩]
            ⟨"A", "1", "0", "0", "0", "0", "0", "0", "20240101", "20240131"⟩
            = (weekday_mask ⟨"A", "1", "0", "0", "0", "0", "0", "0", "20240101", "20240131"⟩,
               routesKey [⟨"t1", "A", "r1"⟩, ⟨"t2", "A", ""⟩] "A")
        ∧ (routesKey [⟨"t1", "A", "r1"⟩, ⟨"t2", "A", ""⟩] "A").toFinset
            = (if ([⟨"t1", "A", "r1"⟩, ⟨"t2", "A", ""⟩] : List TripRow).filter
                  (fun t => t.service_id == "A") = []
               then {UNKNOWN_ROUTE_ID}
               else ((([⟨"t1", "A", "r1"⟩, ⟨"t2", "A", ""⟩] : List TripRow).filter
                   (fun t => t.service_id == "A")).map routeOf).toFinset)
        ∧ List.Sorted (· ≤ ·) (routesKey [⟨"t1", "A", "r1"⟩, ⟨"t2", "A", ""⟩] "A")
        ∧ (routesKey [⟨"t1", "A", "r1"⟩, ⟨"t2", "A", ""⟩] "A").Nodup :=
  ⟨by decide, by decide, by decide,
   c7_grouping_partition
     [⟨"A", "1", "0", "0", "0", "0", "0", "0", "20240101", "20240131"⟩,
      ⟨"B", "1", "0", "0", "0", "0", "0", "0", "20240101", "20240131"⟩]
     [⟨"t1", "A", "r1"⟩, ⟨"t2", "A", ""⟩] (by decide)
     ⟨"A", "1", "0", "0", "0", "0", "0", "0", "20240101", "20240131"⟩ (by decide)
     (by decide)⟩

theorem stage4_mem {c r : List String} {w : String} (hne : c ≠ [])
    (h : (stage4 c r).1 = some w) : w ∈ c := by
  unfold stage4 at h
  split_ifs at h <;> simp only [Option.some.injEq] at h <;> subst h
  · exact numLexMax_mem hne
  · exact lexMax_mem hne

theorem stage3_mem {m : String → Metrics} {c r : List String} {w : String}
    (hne : c ≠ []) (h : (stage3 m c r).1 = some w) : w ∈ c := by
  unfold stage3 at h
  cases hmax : maxOfList (c.filterMap (fun s => (m s).start_date)) with
  | none =>
      rw [hmax] at h
      exact stage4_mem hne h
  | some ms =>
      rw [hmax] at h
      simp only at h
      have hcne : c.filter (fun s => (m s).start_date == some ms) ≠ [] := by
        have hm := maxOfList_mem hmax
        obtain ⟨s, hs, hv⟩ := List.mem_filterMap.mp hm
        intro hcon
        have : s ∈ c.filter (fun s => (m s).start_date == some ms) :=
          List.mem_filter.mpr ⟨hs, by simp [hv]⟩
        rw [hcon] at this
        simp at this
      by_cases hlen : (c.filter (fun s => (m s).start_date == some ms)).length = 1
      · rw [if_pos hlen] at h
        simp only at h
        obtain ⟨x, hx, hh, _⟩ := length_one_head? hlen
        rw [hh] at h
        simp only [Option.some.injEq] at h
        have hxmem : x ∈ c.filter (fun s => (m s).start_date == some ms) := by
          rw [hx]; simp
        rw [← h]
        exact List.mem_of_mem_filter hxmem
      · rw [if_neg hlen] at h
        exact List.mem_of_mem_filter (stage4_mem hcne h)

theorem stage2_mem {m : String → Metrics} {c r : List String} {w : String}
    (hne : c ≠ []) (h : (stage2 m c r).1 = some w) : w ∈ c := by
  unfold stage2 at h
  have hcne : c.filter (fun s => (m s).active_after_pivot
      == maxNat (c.map (fun s => (m s).active_after_pivot))) ≠ [] := by
    have hmapne : c.map (fun s => (m s).active_after_pivot) ≠ [] := by
      simp [hne]
    have hm := maxNat_attained hmapne
    obtain ⟨s, hs, hv⟩ := List.mem_map.mp hm
    intro hcon
    have : s ∈ c.filter (fun s => (m s).active_after_pivot
        == maxNat (c.map (fun s => (m s).active_after_pivot))) :=
      List.mem_filter.mpr ⟨hs, by simp [hv]⟩
    rw [hcon] at this
    simp at this
  by_cases hlen : (c.filter (fun s => (m s).active_after_pivot
      == maxNat (c.map (fun s => (m s).active_after_pivot)))).length = 1
  · rw [if_pos hlen] at h
    simp only at h
    obtain ⟨x, hx, hh, _⟩ := length_one_head? hlen
    rw [hh] at h
    simp only [Option.some.injEq] at h
    have hxmem : x ∈ c.filter (fun s => (m s).active_after_pivot
        == maxNat (c.map (fun s => (m s).active_after_pivot))) := by
      rw [hx]; simp
    rw [← h]
    exact List.mem_of_mem_filter hxmem
  · rw [if_neg hlen] at h
    exact List.mem_of_mem_filter (stage3_mem hcne h)

theorem stage1_mem {m : String → Metrics} {services : List String} {w : String}
    (hne : services ≠ []) (h : (stage1 m services).1 = some w) : w ∈ services := by
  unfold stage1 at h
  cases hmax : maxOfList (services.filterMap (fun s => (m s).last_active_date)) with
  | none =>
      rw [hmax] at h
      exact stage2_mem hne h
  | some ml =>
      rw [hmax] at h
      simp only at h
      have hcne : services.filter (fun s => (m s).last_active_date == some ml) ≠ [] := by
        have hm := maxOfList_mem hmax
        obtain ⟨s, hs, hv⟩ := List.mem_filterMap.mp hm
        intro hcon
        have : s ∈ services.filter (fun s => (m s).last_active_date == some ml) :=
          List.mem_filter.mpr ⟨hs, by simp [hv]⟩
        rw [hcon] at this
        simp at this
      by_cases hlen : (services.filter
          (fun s => (m s).last_active_date == some ml)).length = 1
      · rw [if_pos hlen] at h
        simp only at h
        obtain ⟨x, hx, hh, _⟩ := length_one_head? hlen
        rw [hh] at h
        simp only [Option.some.injEq] at h
        have hxmem : x ∈ services.filter
            (fun s => (m s).last_active_date == some ml) := by
          rw [hx]; simp
        rw [← h]
        exact List.mem_of_mem_filter hxmem
      · rw [if_neg hlen] at h
        exact List.mem_of_mem_filter (stage2_mem hcne h)

theorem winner_mem {services : List String} {cald : String → Option CalRow}
    {cds : List CDRow} {pivot ov : Nat} {w : String}
    (h : (choose_service_winner_factual services cald cds pivot ov).1 = some w) :
    w ∈ services := by
  unfold choose_service_winner_factual at h
  by_cases hlen : services.length ≤ 1
  · rw [if_pos hlen] at h
    cases services with
    | nil => simp at h
    | cons a t =>
        simp only [List.head?] at h
        simp only [Option.some.injEq] at h
        subst h
        simp
  · rw [if_neg hlen] at h
    have hne : services ≠ [] := by
      intro hcon
      rw [hcon] at hlen
      simp at hlen
    by_cases hov : ov < maxPairOverlap (resolverMetrics cald cds pivot) services
    · rw [if_pos hov] at h
      simp at h
    · rw [if_neg hov] at h
      exact stage1_mem hne h

theorem processGroup_keep_mono (calsD : String → Option CalRow) (cds : List CDRow)
    (pivot ov : Nat) (st : PruneState)
    (g : (List Bool × List String) × List String) :
    st.keep ⊆ (processGroup calsD cds pivot ov st g).keep := by
  simp only [processGroup]
  split_ifs
  · exact Finset.subset_union_left
  · exact Finset.subset_union_left
  · exact Finset.subset_union_left
  · exact Finset.subset_insert _ _

theorem processGroup_recs_mono (calsD : String → Option CalRow) (cds : List CDRow)
    (pivot ov : Nat) (st : PruneState)
    (g : (List Bool × List String) × List String) {rec : GroupRec}
    (hr : rec ∈ st.recs) : rec ∈ (processGroup calsD cds pivot ov st g).recs := by
  simp only [processGroup]
  split_ifs
  · exact hr
  · exact List.mem_append.mpr (Or.inl hr)
  · exact List.mem_append.mpr (Or.inl hr)
  · exact List.mem_append.mpr (Or.inl hr)

theorem processGroup_prune_sub (calsD : String → Option CalRow) (cds : List CDRow)
    (pivot ov : Nat) (st : PruneState)
    (g : (List Bool × List String) × List String) (s : String)
    (h : s ∈ (processGroup calsD cds pivot ov st g).prune) :
    s ∈ st.prune
    ∨ (s ∈ g.2 ∧ ¬ g.2.length ≤ 1 ∧ ¬ g.1.1.count true ≤ 2) := by
  simp only [processGroup] at h
  split_ifs at h with h1 h2 h3
  · exact Or.inl h
  · exact Or.inl h
  · exact Or.inl h
  · rcases Finset.mem_union.mp h with h | h
    · exact Or.inl h
    · exact Or.inr ⟨List.mem_of_mem_filter (List.mem_toFinset.mp h), h1, h2⟩

theorem processGroup_keep_sub (calsD : String → Option CalRow) (cds : List CDRow)
    (pivot ov : Nat) (st : PruneState)
    (g : (List Bool × List String) × List String) (s : String)
    (h : s ∈ (processGroup calsD cds pivot ov st g).keep) :
    s ∈ st.keep ∨ s ∈ g.2 := by
  simp only [processGroup] at h
  split_ifs at h with h1 h2 h3
  · rcases Finset.mem_union.mp h with h | h
    · exact Or.inl h
    · exact Or.inr (List.mem_toFinset.mp h)
  · rcases Finset.mem_union.mp h with h | h
    · exact Or.inl h
    · exact Or.inr (List.mem_toFinset.mp h)
  · rcases Finset.mem_union.mp h with h | h
    · exact Or.inl h
    · exact Or.inr (List.mem_toFinset.mp h)
  · rcases Finset.mem_insert.mp h with h | h
    · push_neg at h3
      obtain ⟨_, hw⟩ := h3
      cases hr : (choose_service_winner_factual g.2 calsD cds pivot ov).1 with
      | none =>
          rw [hr] at hw
          exact absurd rfl hw
      | some w' =>
          rw [hr] at h hw
          right
          rw [h]
          simpa using winner_mem hr
    · exact Or.inl h

theorem processGroup_lowfreq (calsD : String → Option CalRow) (cds : List CDRow)
    (pivot ov : Nat) (st : PruneState)
    (g : (List Bool × List String) × List String)
    (h1 : ¬ g.2.length ≤ 1) (h2 : g.1.1.count true ≤ 2) :
    (∀ s ∈ g.2, s ∈ (processGroup calsD cds pivot ov st g).keep)
    ∧ (⟨g.1.1, g.1.2, g.2, none,
        ["Weekday mask has " ++ toString (g.1.1.count true)
           ++ " active day(s); keeping all services",
         "Routes: " ++ String.intercalate "," g.1.2],
        true⟩ : GroupRec) ∈ (processGroup calsD cds pivot ov st g).recs := by
  simp only [processGroup]
  rw [if_neg h1, if_pos h2]
  constructor
  · intro s hs
    exact Finset.mem_union_right _ (List.mem_toFinset.mpr hs)
  · exact List.mem_append.mpr (Or.inr (by simp))

theorem foldl_keep_mono (calsD : String → Option CalRow) (cds : List CDRow)
    (pivot ov : Nat) :
    ∀ (L : List ((List Bool × List String) × List String)) (st : PruneState),
      st.keep ⊆ (L.foldl (processGroup calsD cds pivot ov) st).keep := by
  intro L
  induction L with
  | nil => intro st; exact Finset.Subset.refl _
  | cons g L' ih =>
      intro st
      exact Finset.Subset.trans (processGroup_keep_mono calsD cds pivot ov st g)
        (ih (processGroup calsD cds pivot ov st g))

theorem foldl_recs_mono (calsD : String → Option CalRow) (cds : List CDRow)
    (pivot ov : Nat) :
    ∀ (L : List ((List Bool × List String) × List String)) (st : PruneState)
      {rec : GroupRec}, rec ∈ st.recs →
      rec ∈ (L.foldl (processGroup calsD cds pivot ov) st).recs := by
  intro L
  induction L with
  | nil => intro st rec h; exact h
  | cons g L' ih =>
      intro st rec h
      exact ih _ (processGroup_recs_mono calsD cds pivot ov st g h)

theorem foldl_prune_sub (calsD : String → Option CalRow) (cds : List CDRow)
    (pivot ov : Nat) :
    ∀ (L : List ((List Bool × List String) × List String)) (st : PruneState)
      (s : String),
      s ∈ (L.foldl (processGroup calsD cds pivot ov) st).prune →
      s ∈ st.prune
      ∨ ∃ g ∈ L, s ∈ g.2 ∧ ¬ g.2.length ≤ 1 ∧ ¬ g.1.1.count true ≤ 2 := by
  intro L
  induction L with
  | nil => intro st s h; exact Or.inl h
  | cons g L' ih =>
      intro st s h
      rcases ih _ s h with h' | ⟨g', hg', hprops⟩
      · rcases processGroup_prune_sub calsD cds pivot ov st g s h' with h'' | h''
        · exact Or.inl h''
        · exact Or.inr ⟨g, List.mem_cons_self g L', h''⟩
      · exact Or.inr ⟨g', List.mem_cons_of_mem g hg', hprops⟩

theorem foldl_keep_sub (calsD : String → Option CalRow) (cds : List CDRow)
    (pivot ov : Nat) :
    ∀ (L : List ((List Bool × List String) × List String)) (st : PruneState)
      (s : String),
      s ∈ (L.foldl (processGroup calsD cds pivot ov) st).keep →
      s ∈ st.keep ∨ ∃ g ∈ L, s ∈ g.2 := by
  intro L
  induction L with
  | nil => intro st s h; exact Or.inl h
  | cons g L' ih =>
      intro st s h
      rcases ih _ s h with h' | ⟨g', hg', hmem⟩
      · rcases processGroup_keep_sub calsD cds pivot ov st g s h' with h'' | h''
        · exact Or.inl h''
        · exact Or.inr ⟨g, List.mem_cons_self g L', h''⟩
      · exact Or.inr ⟨g', List.mem_cons_of_mem g hg', hmem⟩

theorem foldl_lowfreq (calsD : String → Option CalRow) (cds : List CDRow)
    (pivot ov : Nat) :
    ∀ (L : List ((List Bool × List String) × List String)) (st : PruneState)
      (key : List Bool × List String) (sids : List String),
      (key, sids) ∈ L → ¬ sids.length ≤ 1 → key.1.count true ≤ 2 →
      (∀ s ∈ sids, s ∈ (L.foldl (processGroup calsD cds pivot ov) st).keep)
      ∧ (⟨key.1, key.2, sids, none,
          ["Weekday mask has " ++ toString (key.1.count true)
             ++ " active day(s); keeping all services",
           "Routes: " ++ String.intercalate "," key.2],
          true⟩ : GroupRec)
          ∈ (L.foldl (processGroup calsD cds pivot ov) st).recs := by
  intro L
  induction L with
  | nil => intro st key sids h; simp at h
  | cons g L' ih =>
      intro st key sids hmem h1 h2
      rcases List.mem_cons.mp hmem with rfl | hmem'
      · have hp := processGroup_lowfreq calsD cds pivot ov st (key, sids) h1 h2
        simp only [List.foldl_cons]
        constructor
        · intro s hs
          exact foldl_keep_mono calsD cds pivot ov L' _ (hp.1 s hs)
        · exact foldl_recs_mono calsD cds pivot ov L' _ hp.2
      · simp only [List.foldl_cons]
        exact ih _ key sids hmem' h1 h2

theorem groupList_disjoint {cal : List CalRow} {trips : List TripRow}
    (hnodup : (cal.map (fun c => c.service_id)).Nodup)
    {k1 k2 : List Bool × List String} {s1 s2 : List String}
    (h1 : (k1, s1) ∈ groupList cal trips) (h2 : (k2, s2) ∈ groupList cal trips)
    {x : String} (hx1 : x ∈ s1) (hx2 : x ∈ s2) : k1 = k2 ∧ s1 = s2 := by
  have e1 := groupList_mem h1
  have e2 := groupList_mem h2
  rw [e1] at hx1
  rw [e2] at hx2
  obtain ⟨d1, hd1, hds1⟩ := List.mem_map.mp hx1
  obtain ⟨d2, hd2, hds2⟩ := List.mem_map.mp hx2
  have hk1 : groupKeyOf trips d1 = k1 := by
    simpa using (List.mem_filter.mp hd1).2
  have hk2 : groupKeyOf trips d2 = k2 := by
    simpa using (List.mem_filter.mp hd2).2
  have hc1 : d1 ∈ cal := (List.mem_filter.mp (List.mem_filter.mp hd1).1).1
  have hc2 : d2 ∈ cal := (List.mem_filter.mp (List.mem_filter.mp hd2).1).1
  have hdd : d1 = d2 :=
    List.inj_on_of_nodup_map hnodup hc1 hc2 (by rw [hds1, hds2])
  subst hdd
  have hk : k1 = k2 := by rw [← hk1, ← hk2]
  refine ⟨hk, ?_⟩
  rw [e1, e2, hk]

/-- C5: under the data-model invariant of distinct calendar service ids, a
group of more than one service whose weekday mask has at most two active
days is kept in full: every service of the group enters the keep set, the
diagnostics record the group with `winner = None`, `is_ambiguous = True` and
the fixed keep-all reasons (no resolver reasons, as the resolver is never
invoked), and no service of the group is ever added to the pruned set,
regardless of overlaps or tiebreaks. -/
theorem c5_low_frequency_exemption :
    ∀ (cal : List CalRow) (cds : List CDRow) (trips : List TripRow)
      (pivot ov : Nat) (key : List Bool × List String) (sids : List String),
      (cal.map (fun c => c.service_id)).Nodup →
      (key, sids) ∈ groupList cal trips →
      1 < sids.length →
      key.1.count true ≤ 2 →
      (∀ s ∈ sids, s ∈ (pruneState cal cds trips pivot ov).keep)
      ∧ (⟨key.1, key.2, sids, none,
           ["Weekday mask has " ++ toString (key.1.count true)
              ++ " active day(s); keeping all services",
            "Routes: " ++ String.intercalate "," key.2],
           true⟩ : GroupRec) ∈ (pruneState cal cds trips pivot ov).recs
      ∧ (∀ s ∈ sids, s ∉ (pruneState cal cds trips pivot ov).prune) := by
  intro cal cds trips pivot ov key sids hnodup hg hlen hcount
  have hmemL : (key, sids)
      ∈ List.insertionSort (fun a b => gkeyLeB a b = true) (groupList cal trips) :=
    (List.perm_insertionSort _ _).mem_iff.mpr hg
  have h1 : ¬ sids.length ≤ 1 := by omega
  obtain ⟨hkeep, hrec⟩ := foldl_lowfreq (calendarsDict cal) cds pivot ov _
    initPruneState key sids hmemL h1 hcount
  refine ⟨hkeep, hrec, ?_⟩
  intro s hs hcon
  rcases foldl_prune_sub (calendarsDict cal) cds pivot ov _ initPruneState s hcon
    with h | ⟨g', hg', hsg', _, hc'⟩
  · simp [initPruneState] at h
  · have hg'' : (g'.1, g'.2) ∈ groupList cal trips := by
      have := (List.perm_insertionSort
        (fun a b => gkeyLeB a b = true) (groupList cal trips)).mem_iff.mp hg'
      simpa using this
    have hdisj := groupList_disjoint hnodup hg'' hg hsg' hs
    exact hc' (by rw [hdisj.1]; exact hcount)

/-- Witness for C5: services `"A"` and `"B"` share a Monday-only mask and own
no trips, forming one two-service unknown-route group that is kept whole. -/
theorem c5_low_frequency_exemption_witness :
    (([⟨"A", "1", "0", "0", "0", "0", "0", "0", "20240101", "20240131"⟩,
       ⟨"B", "1", "0", "0", "0", "0", "0", "0", "20240101", "20240131"⟩] :
        List CalRow).map (fun c => c.service_id)).Nodup
    ∧ ((([true, false, false, false, false, false, false], [UNKNOWN_ROUTE_ID]),
        ["A", "B"]) ∈ groupList
          [⟨"A", "1", "0", "0", "0", "0", "0", "0", "20240101", "20240131"⟩,
           ⟨"B", "1", "0", "0", "0", "0", "0", "0", "20240101", "20240131"⟩] [])
    ∧ 1 < (["A", "B"] : List String).length
    ∧ (([true, false, false, false, false, false, false] : List Bool).count true ≤ 2)
    ∧ ((∀ s ∈ (["A", "B"] : List String), s ∈ (pruneState
          [⟨"A", "1", "0", "0", "0", "0", "0", "0", "20240101", "20240131"⟩,
           ⟨"B", "1", "0", "0", "0", "0", "0", "0", "20240101", "20240131"⟩]
          [] [] 1 45).keep)
       ∧ (⟨[true, false, false, false, false, false, false], [UNKNOWN_ROUTE_ID],
            ["A", "B"], none,
            ["Weekday mask has "
               ++ toString (([true, false, false, false, false, false, false] :
                    List Bool).count true)
               ++ " active day(s); keeping all services",
             "Routes: " ++ String.intercalate "," [UNKNOWN_ROUTE_ID]],
            true⟩ : GroupRec) ∈ (pruneState
          [⟨"A", "1", "0", "0", "0", "0", "0", "0", "20240101", "20240131"⟩,
           ⟨"B", "1", "0", "0", "0", "0", "0", "0", "20240101", "20240131"⟩]
          [] [] 1 45).recs
       ∧ (∀ s ∈ (["A", "B"] : List String), s ∉ (pruneState
          [⟨"A", "1", "0", "0", "0", "0", "0", "0", "20240101", "20240131"⟩,
           ⟨"B", "1", "0", "0", "0", "0", "0", "0", "20240101", "20240131"⟩]
          [] [] 1 45).prune)) :=
  ⟨by decide, by decide, by decide, by decide,
   c5_low_frequency_exemption
     [⟨"A", "1", "0", "0", "0", "0", "0", "0", "20240101", "20240131"⟩,
      ⟨"B", "1", "0", "0", "0", "0", "0", "0", "20240101", "20240131"⟩]
     [] [] 1 45
     ([true, false, false, false, false, false, false], [UNKNOWN_ROUTE_ID])
     ["A", "B"] (by decide) (by decide) (by decide) (by decide)⟩

/-- C6: the surviving trips are exactly the input trip rows whose
`service_id` is kept, the surviving stop-times are exactly the input rows
whose `trip_id` belongs to a surviving trip; hence every surviving stop-time
references a surviving trip and every surviving trip references a surviving
calendar row. -/
theorem c6_cascade_integrity :
    ∀ (cal : List CalRow) (cds : List CDRow) (trips : List TripRow)
      (stop_times : List StRow) (pivot ov : Nat),
      (prune_overlaps_factual cal cds trips stop_times pivot ov).2.2.1
        = trips.filter (fun t =>
            decide (t.service_id ∈ (pruneState cal cds trips pivot ov).keep))
      ∧ (prune_overlaps_factual cal cds trips stop_times pivot ov).2.2.2.1
        = stop_times.filter (fun s => decide (s.trip_id
            ∈ (((prune_overlaps_factual cal cds trips stop_times pivot ov).2.2.1).map
                (fun t => t.trip_id)).toFinset))
      ∧ (∀ s ∈ (prune_overlaps_factual cal cds trips stop_times pivot ov).2.2.2.1,
          ∃ t ∈ (prune_overlaps_factual cal cds trips stop_times pivot ov).2.2.1,
            t.trip_id = s.trip_id)
      ∧ (∀ t ∈ (prune_overlaps_factual cal cds trips stop_times pivot ov).2.2.1,
          ∃ c ∈ (prune_overlaps_factual cal cds trips stop_times pivot ov).1,
            c.service_id = t.service_id) := by
  intro cal cds trips stop_times pivot ov
  refine ⟨rfl, rfl, ?_, ?_⟩
  · intro s hs
    have hs' : s ∈ stop_times.filter (fun s => decide (s.trip_id
        ∈ (((prune_overlaps_factual cal cds trips stop_times pivot ov).2.2.1).map
            (fun t => t.trip_id)).toFinset)) := hs
    have hcond := (List.mem_filter.mp hs').2
    simp only [decide_eq_true_eq, List.mem_toFinset, List.mem_map] at hcond
    obtain ⟨t, ht, htid⟩ := hcond
    exact ⟨t, ht, htid⟩
  · intro t ht
    have ht' : t ∈ trips.filter (fun t =>
        decide (t.service_id ∈ (pruneState cal cds trips pivot ov).keep)) := ht
    have hmem := (List.mem_filter.mp ht').1
    have hkeep : t.service_id ∈ (pruneState cal cds trips pivot ov).keep := by
      have := (List.mem_filter.mp ht').2
      simpa using this
    rcases foldl_keep_sub (calendarsDict cal) cds pivot ov _ initPruneState
      t.service_id hkeep with h | ⟨g, hg, hsg⟩
    · simp [initPruneState] at h
    · have hg' : (g.1, g.2) ∈ groupList cal trips := by
        have := (List.perm_insertionSort
          (fun a b => gkeyLeB a b = true) (groupList cal trips)).mem_iff.mp hg
        simpa using this
      have hsids := groupList_mem hg'
      rw [hsids] at hsg
      obtain ⟨d, hd, hds⟩ := List.mem_map.mp hsg
      have hdc : d ∈ cal := (List.mem_filter.mp (List.mem_filter.mp hd).1).1
      refine ⟨d, ?_, hds⟩
      show d ∈ cal.filter (fun c =>
        decide (c.service_id ∈ (pruneState cal cds trips pivot ov).keep))
      apply List.mem_filter.mpr
      refine ⟨hdc, ?_⟩
      simp only [decide_eq_true_eq]
      rw [hds]
      exact hkeep

/-- Witness for C6: a two-service feed where `"101"` wins its group; the trip
and stop-time cascades follow the kept services. -/
theorem c6_cascade_integrity_witness :
    (prune_overlaps_factual
        [⟨"100", "1", "1", "1", "1", "1", "0", "0", "20240101", "20240131"⟩,
         ⟨"101", "1", "1", "1", "1", "1", "0", "0", "20240101", "20240131"⟩]
        [] [⟨"t1", "100", "r1"⟩, ⟨"t2", "101", "r1"⟩] [⟨"t1"⟩, ⟨"t2"⟩, ⟨"t9"⟩]
        (toOrd 2024 2 1) 45).2.2.1
      = ([⟨"t1", "100", "r1"⟩, ⟨"t2", "101", "r1"⟩] : List TripRow).filter (fun t =>
          decide (t.service_id ∈ (pruneState
            [⟨"100", "1", "1", "1", "1", "1", "0", "0", "20240101", "20240131"⟩,
             ⟨"101", "1", "1", "1", "1", "1", "0", "0", "20240101", "20240131"⟩]
            [] [⟨"t1", "100", "r1"⟩, ⟨"t2", "101", "r1"⟩] (toOrd 2024 2 1) 45).keep))
    ∧ (∀ s ∈ (prune_overlaps_factual
        [⟨"100", "1", "1", "1", "1", "1", "0", "0", "20240101", "20240131"⟩,
         ⟨"101", "1", "1", "1", "1", "1", "0", "0", "20240101", "20240131"⟩]
        [] [⟨"t1", "100", "r1"⟩, ⟨"t2", "101", "r1"⟩] [⟨"t1"⟩, ⟨"t2"⟩, ⟨"t9"⟩]
        (toOrd 2024 2 1) 45).2.2.2.1,
        ∃ t ∈ (prune_overlaps_factual
          [⟨"100", "1", "1", "1", "1", "1", "0", "0", "20240101", "20240131"⟩,
           ⟨"101", "1", "1", "1", "1", "1", "0", "0", "20240101", "20240131"⟩]
          [] [⟨"t1", "100", "r1"⟩, ⟨"t2", "101", "r1"⟩] [⟨"t1"⟩, ⟨"t2"⟩, ⟨"t9"⟩]
          (toOrd 2024 2 1) 45).2.2.1, t.trip_id = s.trip_id)
    ∧ (∀ t ∈ (prune_overlaps_factual
        [⟨"100", "1", "1", "1", "1", "1", "0", "0", "20240101", "20240131"⟩,
         ⟨"101", "1", "1", "1", "1", "1", "0", "0", "20240101", "20240131"⟩]
        [] [⟨"t1", "100", "r1"⟩, ⟨"t2", "101", "r1"⟩] [⟨"t1"⟩, ⟨"t2"⟩, ⟨"t9"⟩]
        (toOrd 2024 2 1) 45).2.2.1,
        ∃ c ∈ (prune_overlaps_factual
          [⟨"100", "1", "1", "1", "1", "1", "0", "0", "20240101", "20240131"⟩,
           ⟨"101", "1", "1", "1", "1", "1", "0", "0", "20240101", "20240131"⟩]
          [] [⟨"t1", "100", "r1"⟩, ⟨"t2", "101", "r1"⟩] [⟨"t1"⟩, ⟨"t2"⟩, ⟨"t9"⟩]
          (toOrd 2024 2 1) 45).1, c.service_id = t.service_id) :=
  ⟨(c6_cascade_integrity
      [⟨"100", "1", "1", "1", "1", "1", "0", "0", "20240101", "20240131"⟩,
       ⟨"101", "1", "1", "1", "1", "1", "0", "0", "20240101", "20240131"⟩]
      [] [⟨"t1", "100", "r1"⟩, ⟨"t2", "101", "r1"⟩] [⟨"t1"⟩, ⟨"t2"⟩, ⟨"t9"⟩]
      (toOrd 2024 2 1) 45).1,
   (c6_cascade_integrity
      [⟨"100", "1", "1", "1", "1", "1", "0", "0", "20240101", "20240131"⟩,
       ⟨"101", "1", "1", "1", "1", "1", "0", "0", "20240101", "20240131"⟩]
      [] [⟨"t1", "100", "r1"⟩, ⟨"t2", "101", "r1"⟩] [⟨"t1"⟩, ⟨"t2"⟩, ⟨"t9"⟩]
      (toOrd 2024 2 1) 45).2.2.1,
   (c6_cascade_integrity
      [⟨"100", "1", "1", "1", "1", "1", "0", "0", "20240101", "20240131"⟩,
       ⟨"101", "1", "1", "1", "1", "1", "0", "0", "20240101", "20240131"⟩]
      [] [⟨"t1", "100", "r1"⟩, ⟨"t2", "101", "r1"⟩] [⟨"t1"⟩, ⟨"t2"⟩, ⟨"t9"⟩]
      (toOrd 2024 2 1) 45).2.2.2⟩

end GtfsBuilder
